import Mathlib

/-!
Verification of the paperlint statistics engine.

This file gives a shallow embedding of the statistics calculator
(src/lib/statistics-calculator.ts), the statistics linter
(src/lib/statistics-linter.ts) and the academic linter orchestrator
(src/lib/academic-linter.ts), and proves the frozen claims about them.

Modelling conventions:
* Regular-expression behaviour is abstracted by a `RegexOracle`: a function
  giving, for a pattern source string and a subject text, the list of full
  match strings (in order), plus a predicate saying which pattern strings
  compile.  Every place the source compiles or runs a regex goes through the
  oracle; everything else (numeric token extraction inside a match, parsing,
  thresholds, dedup, rule evaluation, cache) is embedded concretely.
* JavaScript numbers are modelled by `JsNum` (an exact rational plus
  infinities and NaN).  We do not model finite rounding; we do model the
  overflow of decimal literals to Infinity, which is the only float behaviour
  the claims depend on.
* The configuration document (analysis-config.yaml) is not part of the
  sources; all functions are parametrised by a `Config` value whose shape
  mirrors src/config/types.ts.  Where a claim needs the concrete reference
  configuration, a value is modelled from the spec and marked as such.
* A `Record<string, T>` is modelled as an association list `List (String × T)`
  in insertion order (the order `Object.entries` iterates).  A category that
  is absent at runtime behaves exactly like an empty record in every embedded
  function, so categories are plain lists.
* The mutable compiled-pattern cache of the statistics linter is threaded
  explicitly: each caching function takes and returns a `PatternCache`.
-/

namespace PaperLint

/-- Abstraction of the JavaScript regex engine.  `matchAll p t` is the list of
full match strings (match[0] of each match, in order) of the regex compiled
from source `p` with flags "gi" against text `t`; `compiles p` says whether
`new RegExp(p)` succeeds.  `regex.test t`, `t.match(regex)` (global flag) and
`t.matchAll(regex)` are all derived from `matchAll`. -/
structure RegexOracle where
  compiles : String → Bool
  matchAll : String → String → List String

/-- Issue severity, from src/types (must-fix | should-fix | consider). -/
inductive Severity where
  | mustFix
  | shouldFix
  | consider
deriving Repr, DecidableEq

/-- Study type, from src/config/types.ts. -/
inductive StudyType where
  | experimental
  | observational
  | qualitative
deriving Repr, DecidableEq

/-- The string value the source uses for each study type. -/
def studyTypeStr : StudyType → String
  | .experimental => "experimental"
  | .observational => "observational"
  | .qualitative => "qualitative"

/-- Effect size magnitude, from statistics-calculator.ts. -/
inductive Magnitude where
  | negligible
  | small
  | medium
  | large
deriving Repr, DecidableEq

/-- Rank of a magnitude in the ascending order used by the thresholds. -/
def magRank : Magnitude → ℕ
  | .negligible => 0
  | .small => 1
  | .medium => 2
  | .large => 3

/-- A JavaScript number: an exact rational, or one of the special values.
Finite rounding is not modelled; overflow to the infinities is. -/
inductive JsNum where
  | finite (q : ℚ)
  | inf
  | negInf
  | nan
deriving Repr, DecidableEq

/-- JavaScript `isNaN`. -/
def JsNum.isNaN : JsNum → Bool
  | .nan => true
  | _ => false

/-- JavaScript `Math.abs` on a `JsNum`. -/
def JsNum.abs : JsNum → JsNum
  | .finite q => .finite |q|
  | .inf => .inf
  | .negInf => .inf
  | .nan => .nan

/-- Smallest magnitude at which an exact decimal value rounds to Infinity as
an IEEE-754 double (round to nearest, ties to even): 2^1024 - 2^970. -/
def overflowNum : ℕ := 2 ^ 1024 - 2 ^ 970

-- ===========================================================================
-- Configuration shapes (src/config/types.ts)
-- ===========================================================================

/-- EffectSizeThreshold from src/config/types.ts. -/
structure EffectSizeThreshold where
  small : ℚ
  medium : ℚ
  large : ℚ
  description : String
deriving Repr, DecidableEq

/-- The minimumRecommended table of a SampleSizeFormula. -/
structure MinimumRecommended where
  small_effect : ℕ
  medium_effect : ℕ
  large_effect : ℕ
deriving Repr, DecidableEq

/-- SampleSizeFormula from src/config/types.ts. -/
structure SampleSizeFormula where
  formula : String
  description : String
  minimumRecommended : MinimumRecommended
deriving Repr, DecidableEq

/-- StudyDesignCheckItem from src/config/types.ts. -/
structure StudyDesignCheckItem where
  id : String
  label : String
  patternRef : Option String := none
  patternRefs : Option (List String) := none
  severity : Severity
deriving Repr, DecidableEq

/-- The tag of a ValidationRuleCondition `type` field. -/
inductive CondType where
  | countCheck
  | sampleSizeCheck
deriving Repr, DecidableEq

/-- ValidationRuleCondition from src/config/types.ts.  All fields optional,
exactly as in the source. -/
structure ValidationRuleCondition where
  matchPattern : Option String := none
  matchPatterns : Option (List String) := none
  hasAnyPattern : Option (List String) := none
  missingAllPatterns : Option (List String) := none
  type : Option CondType := none
  pattern : Option String := none
  threshold : Option ℕ := none
  sections : Option (List String) := none
deriving Repr, DecidableEq

/-- ValidationRule from src/config/types.ts. -/
structure ValidationRule where
  id : String
  name : String
  description : String
  severity : Severity
  condition : ValidationRuleCondition
  suggestion : String
deriving Repr, DecidableEq

/-- StatisticsPatterns from src/config/types.ts: the twelve named pattern
categories, each a record of named regex source strings. -/
structure StatisticsPatterns where
  pValue : List (String × String) := []
  effectSizes : List (String × String) := []
  sampleSize : List (String × String) := []
  confidenceInterval : List (String × String) := []
  tests : List (String × String) := []
  testStatistics : List (String × String) := []
  assumptions : List (String × String) := []
  corrections : List (String × String) := []
  powerAnalysis : List (String × String) := []
  studyDesign : List (String × String) := []
  qualitative : List (String × String) := []
  robustness : List (String × String) := []
deriving Repr, DecidableEq

/-- StatisticsConfig from src/config/types.ts (the fields the embedded
functions read). -/
structure StatisticsConfig where
  patterns : StatisticsPatterns
  studyTypeExperimental : List String := []
  studyTypeObservational : List String := []
  studyTypeQualitative : List String := []
  effectSizeThresholds : List (String × EffectSizeThreshold) := []
  sampleSizeFormulas : List (String × SampleSizeFormula) := []
  checklistExperimental : List StudyDesignCheckItem := []
  checklistObservational : List StudyDesignCheckItem := []
  checklistQualitative : List StudyDesignCheckItem := []
  validationRules : List ValidationRule := []
deriving Repr, DecidableEq

/-- The studyTypeDetection record, by study type. -/
def StatisticsConfig.studyTypeDetection (sc : StatisticsConfig) : StudyType → List String
  | .experimental => sc.studyTypeExperimental
  | .observational => sc.studyTypeObservational
  | .qualitative => sc.studyTypeQualitative

/-- The studyDesignChecklist record, by study type. -/
def StatisticsConfig.studyDesignChecklist (sc : StatisticsConfig) :
    StudyType → List StudyDesignCheckItem
  | .experimental => sc.checklistExperimental
  | .observational => sc.checklistObservational
  | .qualitative => sc.checklistQualitative

/-- StatisticsLinterConfig from src/config/types.ts. -/
structure StatisticsLinterConfig where
  enabled : Bool
  enabledRules : List String := []
  disabledRules : List String := []
deriving Repr, DecidableEq

/-- The slice of the top-level AnalysisConfig the embedded functions read:
`config.statisticsConfig` and `config.externalCheckers?.statisticsLinter`. -/
structure Config where
  statisticsConfig : Option StatisticsConfig := none
  statisticsLinter : Option StatisticsLinterConfig := none

-- ===========================================================================
-- Numeric token extraction and parsing (the /\d+/ and
-- -?0?\.\d+ or \d+\.?\d* sub-matches of statistics-calculator.ts)
-- ===========================================================================

/-- Leftmost match of /\d+/ over a character list: the first maximal digit
run, if any. -/
def firstDigitRunAux : List Char → Option (List Char)
  | [] => none
  | c :: cs =>
    if c.isDigit then some (c :: cs.takeWhile Char.isDigit)
    else firstDigitRunAux cs

/-- `s.match(/\d+/)`, returning match[0]. -/
def firstDigitRun (s : String) : Option String :=
  (firstDigitRunAux s.toList).map fun l => String.mk l

/-- Value of a digit run, as `parseInt(s, 10)` computes it.  parseInt returns
a double and rounds huge digit runs, but every value this engine keeps is
checked against 100000, far below any rounding, so ℕ is exact here. -/
def parseNatDigits (l : List Char) : ℕ :=
  l.foldl (fun acc c => acc * 10 + (c.toNat - '0'.toNat)) 0

/-- Attempt of the regex fragment \.\d+ at the head of `l` (greedy digits). -/
def dotDigits : List Char → Option (List Char)
  | '.' :: rest =>
    let ds := rest.takeWhile Char.isDigit
    if ds.isEmpty then none else some ('.' :: ds)
  | _ => none

/-- Attempt of 0?\.\d+ at the head of `l`, with the backtracking preference
of the JS engine (consume the optional 0 first). -/
def zeroDotDigits (l : List Char) : Option (List Char) :=
  match l with
  | '0' :: rest =>
    match dotDigits rest with
    | some t => some ('0' :: t)
    | none => dotDigits l
  | _ => dotDigits l

/-- Attempt of the first alternative -?0?\.\d+ at the head of `l`. -/
def numAlt1 (l : List Char) : Option (List Char) :=
  match l with
  | '-' :: rest =>
    match zeroDotDigits rest with
    | some t => some ('-' :: t)
    | none => zeroDotDigits l
  | _ => zeroDotDigits l

/-- Attempt of the second alternative \d+\.?\d* at the head of `l`. -/
def numAlt2 (l : List Char) : Option (List Char) :=
  let ds := l.takeWhile Char.isDigit
  if ds.isEmpty then none
  else
    match l.drop ds.length with
    | '.' :: r2 => some (ds ++ '.' :: r2.takeWhile Char.isDigit)
    | _ => some ds

/-- Leftmost match of -?0?\.\d+ or \d+\.?\d*: at each position the first
alternative is preferred, and positions are tried left to right. -/
def firstNumberTokenAux : List Char → Option (List Char)
  | [] => none
  | c :: cs =>
    match numAlt1 (c :: cs) with
    | some t => some t
    | none =>
      match numAlt2 (c :: cs) with
      | some t => some t
      | none => firstNumberTokenAux cs

/-- `s.match(-?0?\.\d+ or \d+\.?\d*)`, returning match[0]. -/
def firstNumberToken (s : String) : Option String :=
  (firstNumberTokenAux s.toList).map fun l => String.mk l

/-- Decomposition of a token of the shape the number regex produces
(optional sign, digits, optional dot, digits) into sign, integer digits and
fraction digits. -/
def tokenParts (l : List Char) : Bool × List Char × List Char :=
  let signed := l.head? = some '-'
  let l₁ := if signed then l.drop 1 else l
  let intPart := l₁.takeWhile Char.isDigit
  let rest := l₁.drop intPart.length
  let fracPart := match rest with
    | '.' :: r => r.takeWhile Char.isDigit
    | _ => []
  (signed, intPart, fracPart)

/-- Exact decimal value of a number token. -/
def parseDecimal (l : List Char) : ℚ :=
  let p := tokenParts l
  let mag : ℚ := (parseNatDigits p.2.1 : ℚ) +
    (parseNatDigits p.2.2 : ℚ) / (10 : ℚ) ^ p.2.2.length
  if p.1 then -mag else mag

/-- Whether the magnitude of a number token reaches `overflowNum`, phrased
over ℕ by scaling with the fraction length: the magnitude is
(ip * 10^len + fp) / 10^len. -/
def tokenOverflows (l : List Char) : Bool :=
  let p := tokenParts l
  overflowNum * 10 ^ p.2.2.length ≤
    parseNatDigits p.2.1 * 10 ^ p.2.2.length + parseNatDigits p.2.2

/-- `parseFloat` on a token matched by the number regex: the exact decimal
value, pushed through double overflow to the infinities.  Such a token
always contains at least one digit, so parseFloat never yields NaN on it. -/
def parseFloatTok (s : String) : JsNum :=
  if tokenOverflows s.toList then
    if (tokenParts s.toList).1 then .negInf else .inf
  else .finite (parseDecimal s.toList)

-- ===========================================================================
-- statistics-calculator.ts
-- ===========================================================================

/-- ExtractedSampleSize from statistics-calculator.ts. -/
structure ExtractedSampleSize where
  value : ℕ
  context : String
  pattern : String
deriving Repr, DecidableEq

/-- ExtractedEffectSize from statistics-calculator.ts. -/
structure ExtractedEffectSize where
  type : String
  value : JsNum
  context : String
deriving Repr, DecidableEq

/-- EffectSizeInterpretation from statistics-calculator.ts. -/
structure EffectSizeInterpretation where
  magnitude : Magnitude
  interpretation : String
  percentile : Option String := none
deriving Repr, DecidableEq

/-- The required-N record inside SampleAdequacyResult. -/
structure RequiredN where
  small : ℕ
  medium : ℕ
  large : ℕ
deriving Repr, DecidableEq

/-- SampleAdequacyResult from statistics-calculator.ts. -/
structure SampleAdequacyResult where
  adequate : Bool
  extracted : ℕ
  required : RequiredN
  recommendation : String
  testType : String
deriving Repr, DecidableEq

/-- DetectedStudyType from statistics-calculator.ts; `none` is the type
"unknown". -/
structure DetectedStudyType where
  type : Option StudyType
  confidence : ℚ
  matchedPatterns : List String
deriving Repr, DecidableEq

/-- DetectedStatisticalTest from statistics-calculator.ts. -/
structure DetectedStatisticalTest where
  test : String
  configKey : String
  context : String
deriving Repr, DecidableEq

/-- compilePatternSafe: compile with flags "gi", null on failure.  A compiled
regex is represented by its source string (the oracle interprets it). -/
def compilePatternSafe (o : RegexOracle) (p : String) : Option String :=
  if o.compiles p then some p else none

/-- The matches one sample-size pattern entry contributes, before
deduplication: every match whose first digit run parses into (0, 100000). -/
def sampleMatchesFor (o : RegexOracle) (text : String)
    (entry : String × String) : List ExtractedSampleSize :=
  match compilePatternSafe o entry.2 with
  | none => []
  | some _ =>
    (o.matchAll entry.2 text).filterMap fun m =>
      match firstDigitRun m with
      | none => none
      | some ds =>
        let value := parseNatDigits ds.toList
        if 0 < value ∧ value < 100000 then
          some { value := value, context := m, pattern := entry.1 }
        else none

/-- The final dedup-by-value filter of extractSampleSizes (first occurrence
of each value wins). -/
def dedupByValue : List ExtractedSampleSize → List ℕ → List ExtractedSampleSize
  | [], _ => []
  | r :: rs, seen =>
    if r.value ∈ seen then dedupByValue rs seen
    else r :: dedupByValue rs (r.value :: seen)

/-- extractSampleSizes from statistics-calculator.ts. -/
def extractSampleSizes (o : RegexOracle) (cfg : Config) (text : String) :
    List ExtractedSampleSize :=
  match cfg.statisticsConfig with
  | none => []
  | some sc =>
    dedupByValue ((sc.patterns.sampleSize).flatMap (sampleMatchesFor o text)) []

/-- getPrimarySampleSize from statistics-calculator.ts: the maximum extracted
value, or null if none. -/
def getPrimarySampleSize (o : RegexOracle) (cfg : Config) (text : String) :
    Option ℕ :=
  let sizes := extractSampleSizes o cfg text
  if sizes.isEmpty then none
  else some ((sizes.map (·.value)).foldl max 0)

/-- The testToFormula lookup table shared by computeRequiredN and
getSampleSizeRequirements. -/
def testToFormula : List (String × String) :=
  [("t-test", "twoGroupComparison"),
   ("tTest", "twoGroupComparison"),
   ("paired t-test", "pairedComparison"),
   ("correlation", "correlation"),
   ("chi-square", "chiSquare"),
   ("chiSquare", "chiSquare"),
   ("anova", "oneWayAnova"),
   ("ANOVA", "oneWayAnova"),
   ("regression", "regression")]

/-- The record getSampleSizeRequirements returns. -/
structure SampleSizeRequirements where
  small : ℕ
  medium : ℕ
  large : ℕ
  formula : String
  description : String
deriving Repr, DecidableEq

/-- getSampleSizeRequirements from statistics-calculator.ts. -/
def getSampleSizeRequirements (cfg : Config) (testType : String) :
    Option SampleSizeRequirements :=
  match cfg.statisticsConfig with
  | none => none
  | some sc =>
    let formulaKey := ((testToFormula.lookup testType).getD testType)
    match sc.sampleSizeFormulas.lookup formulaKey with
    | none => none
    | some f =>
      some { small := f.minimumRecommended.small_effect,
             medium := f.minimumRecommended.medium_effect,
             large := f.minimumRecommended.large_effect,
             formula := f.formula,
             description := f.description }

/-- assessSampleAdequacy from statistics-calculator.ts. -/
def assessSampleAdequacy (cfg : Config) (extractedN : ℕ) (testType : String) :
    SampleAdequacyResult :=
  match getSampleSizeRequirements cfg testType with
  | none =>
    { adequate := true
      extracted := extractedN
      required := { small := 0, medium := 0, large := 0 }
      recommendation :=
        "Unable to determine sample size requirements for this test type."
      testType := testType }
  | some req =>
    let n := toString extractedN
    let s := toString req.small
    let m := toString req.medium
    let result :=
      if extractedN < req.large then
        (false, "Sample size (n=" ++ n ++ ") may only detect large effects. " ++
          "For medium effects, need n≈" ++ m ++ "; for small effects, need n≈" ++
          s ++ ".")
      else if extractedN < req.medium then
        (true, "Sample size (n=" ++ n ++ ") adequate for large effects only. " ++
          "For medium effects, consider n≈" ++ m ++ ".")
      else if extractedN < req.small then
        (true, "Sample size (n=" ++ n ++ ") adequate for medium effects. " ++
          "For small effects, need n≈" ++ s ++ ".")
      else
        (true, "Sample size (n=" ++ n ++ ") adequate for detecting small effects.")
    { adequate := result.1
      extracted := extractedN
      required := { small := req.small, medium := req.medium, large := req.large }
      recommendation := result.2
      testType := testType }

/-- The typeMapping table of extractEffectSizes. -/
def effectTypeMapping : List (String × String) :=
  [("cohensD", "cohensD"),
   ("correlationR", "correlationR"),
   ("etaSquared", "etaSquared"),
   ("partialEtaSquared", "etaSquared"),
   ("omegaSquared", "omegaSquared"),
   ("cramersV", "cramersV"),
   ("phi", "cramersV"),
   ("oddsRatio", "oddsRatio"),
   ("rSquared", "rSquared")]

/-- The matches one effect-size pattern entry contributes: each match whose
numeric token is not NaN, with the absolute value taken.  The loop body
of extractEffectSizes. -/
def effectMatchesFor (o : RegexOracle) (text : String)
    (entry : String × String) : List ExtractedEffectSize :=
  (o.matchAll entry.2 text).filterMap fun m =>
    match firstNumberToken m with
    | none => none
    | some tok =>
      let value := parseFloatTok tok
      if value.isNaN then none
      else some { type := (effectTypeMapping.lookup entry.1).getD entry.1,
                  value := value.abs,
                  context := m }

/-- The pattern loop of extractEffectSizes.  Unlike extractSampleSizes there
is no compilePatternSafe guard: `new RegExp(patternStr)` on a malformed
pattern throws out of the whole function, which the Except models. -/
def effectLoop (o : RegexOracle) (text : String) :
    List (String × String) → Except Unit (List ExtractedEffectSize)
  | [] => .ok []
  | entry :: rest =>
    if o.compiles entry.2 then
      match effectLoop o text rest with
      | .ok es => .ok (effectMatchesFor o text entry ++ es)
      | .error e => .error e
    else .error ()

/-- extractEffectSizes from statistics-calculator.ts. -/
def extractEffectSizes (o : RegexOracle) (cfg : Config) (text : String) :
    Except Unit (List ExtractedEffectSize) :=
  match cfg.statisticsConfig with
  | none => .ok []
  | some sc => effectLoop o text sc.patterns.effectSizes

/-- The ascending threshold comparison of interpretEffectSize (value < small
gives negligible, < medium small, < large medium, otherwise large). -/
def classifyAsc (q : ℚ) (t : EffectSizeThreshold) : Magnitude :=
  if q < t.small then .negligible
  else if q < t.medium then .small
  else if q < t.large then .medium
  else .large

/-- The canned interpretation tables of interpretEffectSize, including the
generic fallback for unknown types. -/
def effectInterpretationText (type : String) (m : Magnitude) : String :=
  if type = "cohensD" then
    match m with
    | .negligible => "The standardized mean difference is negligible (< 0.2 SD)."
    | .small => "The standardized mean difference is small (~0.2 SD)."
    | .medium => "The standardized mean difference is medium (~0.5 SD)."
    | .large => "The standardized mean difference is large (≥ 0.8 SD)."
  else if type = "correlationR" then
    match m with
    | .negligible => "The correlation is negligible (< 0.1)."
    | .small => "The correlation is weak (~0.1-0.3)."
    | .medium => "The correlation is moderate (~0.3-0.5)."
    | .large => "The correlation is strong (≥ 0.5)."
  else if type = "etaSquared" then
    match m with
    | .negligible => "Less than 1% of variance explained."
    | .small => "About 1-6% of variance explained."
    | .medium => "About 6-14% of variance explained."
    | .large => "More than 14% of variance explained."
  else if type = "rSquared" then
    match m with
    | .negligible => "Less than 2% of variance explained by the model."
    | .small => "About 2-13% of variance explained."
    | .medium => "About 13-26% of variance explained."
    | .large => "More than 26% of variance explained."
  else if type = "cramersV" then
    match m with
    | .negligible => "The association is negligible."
    | .small => "The association is weak."
    | .medium => "The association is moderate."
    | .large => "The association is strong."
  else if type = "oddsRatio" then
    match m with
    | .negligible => "The odds ratio indicates negligible association."
    | .small => "The odds ratio indicates a small effect."
    | .medium => "The odds ratio indicates a medium effect."
    | .large => "The odds ratio indicates a large effect."
  else
    match m with
    | .negligible => "Negligible " ++ type ++ " effect."
    | .small => "Small " ++ type ++ " effect."
    | .medium => "Medium " ++ type ++ " effect."
    | .large => "Large " ++ type ++ " effect."

/-- The fallback sentence interpretEffectSize returns when the statistic
type has no configured threshold table. -/
def thresholdsNotConfiguredMsg (value : ℚ) (type : String) : String :=
  "Effect size of " ++ toString value ++ " for " ++ type ++
    " (thresholds not configured)."

/-- interpretEffectSize from statistics-calculator.ts.  For "oddsRatio" the
source compares max(value, 1/value); in JavaScript 1/0 is Infinity, so the
distance for value = 0 exceeds every threshold, which the `value = 0` branch
reproduces. -/
def interpretEffectSize (cfg : Config) (value : ℚ) (type : String) :
    EffectSizeInterpretation :=
  match cfg.statisticsConfig with
  | none =>
    { magnitude := .medium, interpretation := "Unable to interpret effect size." }
  | some sc =>
    match sc.effectSizeThresholds.lookup type with
    | none =>
      { magnitude := .medium,
        interpretation := thresholdsNotConfiguredMsg value type }
    | some threshold =>
      let magnitude :=
        if type = "oddsRatio" then
          if value = 0 then Magnitude.large
          else classifyAsc (max value (1 / value)) threshold
        else classifyAsc |value| threshold
      { magnitude := magnitude,
        interpretation := effectInterpretationText type magnitude }

/-- JavaScript toLowerCase(), written over the character list so that it
evaluates by kernel reduction (String.toLower does not). -/
def jsToLowerCase (s : String) : String :=
  String.mk (s.toList.map Char.toLower)

/-- The per-pattern scoring loop of detectStudyType: how many patterns of
one study type compile and match the lower-cased text, and which. -/
def countTypeMatches (o : RegexOracle) (lowerText : String)
    (patterns : List String) : ℕ × List String :=
  patterns.foldl
    (fun acc p =>
      match compilePatternSafe o p with
      | some _ =>
        if (o.matchAll p lowerText).isEmpty then acc
        else (acc.1 + 1, acc.2 ++ [p])
      | none => acc)
    (0, [])

/-- detectStudyType from statistics-calculator.ts. -/
def detectStudyType (o : RegexOracle) (cfg : Config) (text : String) :
    DetectedStudyType :=
  match cfg.statisticsConfig with
  | none => { type := none, confidence := 0, matchedPatterns := [] }
  | some sc =>
    let lowerText := jsToLowerCase text
    let e := countTypeMatches o lowerText sc.studyTypeExperimental
    let ob := countTypeMatches o lowerText sc.studyTypeObservational
    let q := countTypeMatches o lowerText sc.studyTypeQualitative
    let totalScore := e.1 + ob.1 + q.1
    -- the max-selection loop: maxType starts at experimental, maxScore at 0,
    -- strict comparison keeps the earlier type on ties
    let step := fun (acc : StudyType × ℕ) (x : StudyType × ℕ) =>
      if x.2 > acc.2 then x else acc
    let best := [(StudyType.experimental, e.1), (StudyType.observational, ob.1),
      (StudyType.qualitative, q.1)].foldl step (StudyType.experimental, 0)
    if best.2 = 0 then { type := none, confidence := 0, matchedPatterns := [] }
    else
      let confidence : ℚ :=
        if totalScore > 0 then (best.2 : ℚ) / (totalScore : ℚ) else 0
      { type := some best.1
        confidence := min confidence 1
        matchedPatterns :=
          match best.1 with
          | .experimental => e.2
          | .observational => ob.2
          | .qualitative => q.2 }

/-- The testNames display table of detectStatisticalTests.  The source
display name of fisherExact contains a straight apostrophe between "Fisher"
and "s"; it is elided here, which no claim observes. -/
def testNames : List (String × String) :=
  [("tTest", "t-test"),
   ("pairedTTest", "Paired t-test"),
   ("independentTTest", "Independent t-test"),
   ("anova", "ANOVA"),
   ("repeatedMeasuresAnova", "Repeated Measures ANOVA"),
   ("ancova", "ANCOVA"),
   ("manova", "MANOVA"),
   ("chiSquare", "Chi-square"),
   ("fisherExact", "Fishers Exact Test"),
   ("mannWhitney", "Mann-Whitney U"),
   ("wilcoxon", "Wilcoxon Test"),
   ("kruskalWallis", "Kruskal-Wallis"),
   ("friedman", "Friedman Test"),
   ("pearson", "Pearson Correlation"),
   ("spearman", "Spearman Correlation"),
   ("linearRegression", "Linear Regression"),
   ("logisticRegression", "Logistic Regression"),
   ("multipleRegression", "Multiple Regression")]

/-- detectStatisticalTests from statistics-calculator.ts: at most one entry
per registered test pattern, using the first match as context. -/
def detectStatisticalTests (o : RegexOracle) (cfg : Config) (text : String) :
    List DetectedStatisticalTest :=
  match cfg.statisticsConfig with
  | none => []
  | some sc =>
    sc.patterns.tests.filterMap fun entry =>
      match compilePatternSafe o entry.2 with
      | none => none
      | some p =>
        match o.matchAll p text with
        | [] => none
        | m :: _ =>
          some { test := (testNames.lookup entry.1).getD entry.1,
                 configKey := entry.1,
                 context := m }

-- ===========================================================================
-- statistics-linter.ts
-- ===========================================================================

/-- Issue from src/types. -/
structure Issue where
  id : String
  severity : Severity
  description : String
  location : Option String := none
  suggestion : Option String := none
deriving Repr, DecidableEq

/-- One entry of the ruleResults list of a lint result. -/
structure RuleResult where
  ruleId : String
  ruleName : String
  issueCount : ℕ
deriving Repr, DecidableEq

/-- The stats block of a StatisticsLintResult. -/
structure StatsCounts where
  pValues : ℕ
  effectSizes : ℕ
  confidenceIntervals : ℕ
  sampleSizes : ℕ
  statisticalTests : ℕ
deriving Repr, DecidableEq

/-- The studyType block of a StatisticsLintResult (`none` is "unknown"). -/
structure StudyTypeSummary where
  type : Option StudyType
  confidence : ℚ
deriving Repr, DecidableEq

/-- One study-design checklist outcome. -/
structure CheckOutcome where
  checkItem : String
  label : String
  passed : Bool
  severity : Severity
deriving Repr, DecidableEq

/-- The sampleAdequacy block of a StatisticsLintResult. -/
structure SampleAdequacySummary where
  extracted : ℕ
  required : RequiredN
  adequate : Bool
  recommendation : String
deriving Repr, DecidableEq

/-- StatisticsLintResult from statistics-linter.ts. -/
structure StatisticsLintResult where
  issues : List Issue
  ruleResults : List RuleResult
  stats : StatsCounts
  studyType : StudyTypeSummary
  studyDesignChecklist : Option (List CheckOutcome) := none
  sampleAdequacy : Option SampleAdequacySummary := none
deriving Repr, DecidableEq

/-- The options object of lintStatistics. -/
structure LintOptions where
  enabledRules : Option (List String) := none
  disabledRules : Option (List String) := none
  includeChecklist : Option Bool := none
  includeSampleAdequacy : Option Bool := none
deriving Repr, DecidableEq

/-- The module-level compiled-pattern cache, keyed by pattern path; a cached
compiled regex is represented by its source string. -/
abbrev PatternCache := List (String × String)

/-- Lookup in the cache (Map.has / Map.get). -/
def cacheFind : PatternCache → String → Option String
  | [], _ => none
  | (k, v) :: rest, p => if k = p then some v else cacheFind rest p

/-- The category step of getPatternString: which field of
statsConfig.patterns a path component selects.  Components that are not one
of the twelve category names (including properties inherited from the object
prototype) never produce a registry string in the source, and are `none`
here. -/
def patternCategory (ps : StatisticsPatterns) : String → Option (List (String × String))
  | "pValue" => some ps.pValue
  | "effectSizes" => some ps.effectSizes
  | "sampleSize" => some ps.sampleSize
  | "confidenceInterval" => some ps.confidenceInterval
  | "tests" => some ps.tests
  | "testStatistics" => some ps.testStatistics
  | "assumptions" => some ps.assumptions
  | "corrections" => some ps.corrections
  | "powerAnalysis" => some ps.powerAnalysis
  | "studyDesign" => some ps.studyDesign
  | "qualitative" => some ps.qualitative
  | "robustness" => some ps.robustness
  | _ => none

/-- getPatternString from statistics-linter.ts: a dotted path resolves to a
registry string only as category.name; any other shape ends on a non-string
and yields null. -/
def getPatternString (cfg : Config) (patternPath : String) : Option String :=
  match cfg.statisticsConfig with
  | none => none
  | some sc =>
    match patternPath.splitOn "." with
    | [cat, key] => (patternCategory sc.patterns cat).bind fun entries =>
        entries.lookup key
    | _ => none

/-- The success value getCompiledPattern computes on a cache miss: resolve
the path in the registry (an empty registry string is falsy and falls back
to the raw path, like the source), then compile; `none` on compile failure.
-/
def freshPattern (o : RegexOracle) (cfg : Config) (path : String) : Option String :=
  let patternStr :=
    match getPatternString cfg path with
    | some s => if s = "" then path else s
    | none => path
  if o.compiles patternStr then some patternStr else none

/-- getCompiledPattern from statistics-linter.ts, with the module-level
cache threaded explicitly.  Only successful compilations are cached. -/
def getCompiledPattern (o : RegexOracle) (cfg : Config) (c : PatternCache)
    (path : String) : Option String × PatternCache :=
  match cacheFind c path with
  | some s => (some s, c)
  | none =>
    match freshPattern o cfg path with
    | some s => (some s, (path, s) :: c)
    | none => (none, c)

/-- countMatches from statistics-linter.ts. -/
def countMatches (o : RegexOracle) (p : String) (text : String) : ℕ :=
  (o.matchAll p text).length

/-- findMatches from statistics-linter.ts. -/
def findMatches (o : RegexOracle) (p : String) (text : String) : List String :=
  o.matchAll p text

/-- matchesAny from statistics-linter.ts: first path that compiles and has a
match wins; the loop stops there. -/
def matchesAny (o : RegexOracle) (cfg : Config) (text : String) :
    PatternCache → List String → Bool × PatternCache
  | c, [] => (false, c)
  | c, path :: rest =>
    let r := getCompiledPattern o cfg c path
    match r.1 with
    | some p =>
      if countMatches o p text > 0 then (true, r.2)
      else matchesAny o cfg text r.2 rest
    | none => matchesAny o cfg text r.2 rest

/-- missingAll from statistics-linter.ts: false as soon as one path compiles
and matches. -/
def missingAll (o : RegexOracle) (cfg : Config) (text : String) :
    PatternCache → List String → Bool × PatternCache
  | c, [] => (true, c)
  | c, path :: rest =>
    let r := getCompiledPattern o cfg c path
    match r.1 with
    | some p =>
      if countMatches o p text > 0 then (false, r.2)
      else missingAll o cfg text r.2 rest
    | none => missingAll o cfg text r.2 rest

/-- Result of evaluateCondition. -/
structure EvalResult where
  triggered : Bool
  matchList : Option (List String) := none  -- the `matches` field (a Lean keyword)
deriving Repr, DecidableEq

/-- The matchPatterns loop of evaluateCondition: the first pattern in the
list with any match triggers with its matches. -/
def matchPatternsLoop (o : RegexOracle) (cfg : Config) (text : String) :
    PatternCache → List String → EvalResult × PatternCache
  | c, [] => ({ triggered := false }, c)
  | c, patternStr :: rest =>
    let r := getCompiledPattern o cfg c patternStr
    match r.1 with
    | some p =>
      let ms := findMatches o p text
      if ms.length > 0 then ({ triggered := true, matchList := some ms }, r.2)
      else matchPatternsLoop o cfg text r.2 rest
    | none => matchPatternsLoop o cfg text r.2 rest

/-- The truthiness guard of the count-check branch: the branch is entered
only when `type` is count-check AND `pattern` is a non-empty string AND
`threshold` is a non-zero number (0 and undefined are both falsy). -/
def countCheckGuard (cond : ValidationRuleCondition) : Option (String × ℕ) :=
  match cond.type, cond.pattern, cond.threshold with
  | some .countCheck, some p, some th =>
    if p ≠ "" ∧ th ≠ 0 then some (p, th) else none
  | _, _, _ => none

/-- The section-restriction guard: a rule with a sections list is skipped
unless the calling section id is in the list. -/
def sectionsBlocked (cond : ValidationRuleCondition) (sectionId : String) : Bool :=
  match cond.sections with
  | some ss => ¬ ss.contains sectionId
  | none => false

/-- The truthiness guard of the matchPattern branch: present and non-empty
(an empty string is falsy and skips the branch). -/
def matchPatternGuard (cond : ValidationRuleCondition) : Option String :=
  match cond.matchPattern with
  | some mp => if mp = "" then none else some mp
  | none => none

/-- evaluateCondition from statistics-linter.ts: the sequential branch
cascade over the optional condition fields, with JavaScript truthiness for
each guard (empty strings are falsy, empty arrays and the number 0 behave
as in the source). -/
def evaluateCondition (o : RegexOracle) (cfg : Config) (c : PatternCache)
    (cond : ValidationRuleCondition) (text sectionId : String) :
    EvalResult × PatternCache :=
  -- section restriction: checked first, skips the rule unconditionally
  if sectionsBlocked cond sectionId then
    ({ triggered := false }, c)
  else
    -- simple pattern match
    match matchPatternGuard cond with
    | some mp =>
      let r := getCompiledPattern o cfg c mp
      match r.1 with
      | some p =>
        let ms := findMatches o p text
        if ms.length > 0 then ({ triggered := true, matchList := some ms }, r.2)
        else ({ triggered := false }, r.2)
      | none => ({ triggered := false }, r.2)
    | none =>
    -- multiple patterns (an empty array is truthy and yields not-triggered)
    match cond.matchPatterns with
    | some lst => matchPatternsLoop o cfg text c lst
    | none =>
      -- count check
      match countCheckGuard cond with
      | some pth =>
        let r := getCompiledPattern o cfg c pth.1
        match r.1 with
        | some p =>
          let count := countMatches o p text
          if count ≥ pth.2 then
            match cond.missingAllPatterns with
            | some mAll =>
              let miss := missingAll o cfg text r.2 mAll
              if miss.1 then ({ triggered := true }, miss.2)
              else ({ triggered := false }, miss.2)
            | none => ({ triggered := true }, r.2)
          else ({ triggered := false }, r.2)
        | none => ({ triggered := false }, r.2)
      | none =>
        -- sample size check (calculator functions; no cache involved)
        if cond.type = some .sampleSizeCheck then
          match getPrimarySampleSize o cfg text,
              detectStatisticalTests o cfg text with
          | some n, t :: _ =>
            if n ≠ 0 then
              if ¬ (assessSampleAdequacy cfg n t.configKey).adequate then
                ({ triggered := true }, c)
              else ({ triggered := false }, c)
            else ({ triggered := false }, c)
          | _, _ => ({ triggered := false }, c)
        else
          -- has any + missing all combination (short-circuit &&)
          match cond.hasAnyPattern, cond.missingAllPatterns with
          | some ha, some mAll =>
            let anyR := matchesAny o cfg text c ha
            if anyR.1 then
              let miss := missingAll o cfg text anyR.2 mAll
              if miss.1 then ({ triggered := true }, miss.2)
              else ({ triggered := false }, miss.2)
            else ({ triggered := false }, anyR.2)
          | _, _ => ({ triggered := false }, c)

/-- processRule from statistics-linter.ts. -/
def processRule (o : RegexOracle) (cfg : Config) (c : PatternCache)
    (rule : ValidationRule) (text sectionId : String) :
    List Issue × PatternCache :=
  let r := evaluateCondition o cfg c rule.condition text sectionId
  if ¬ r.1.triggered then ([], r.2)
  else
    let single : List Issue :=
      [{ id := sectionId ++ "-" ++ rule.id ++ "-0",
         severity := rule.severity,
         description := rule.description,
         suggestion := some rule.suggestion }]
    match r.1.matchList with
    | some ms =>
      if ms.length > 0 then
        (ms.enum.map fun mi =>
          { id := sectionId ++ "-" ++ rule.id ++ "-" ++ toString mi.1,
            severity := rule.severity,
            description := rule.description ++
              (if mi.2 ≠ "" then ": \"" ++ mi.2 ++ "\"" else ""),
            location := some mi.2,
            suggestion := some rule.suggestion }, r.2)
      else (single, r.2)
    | none => (single, r.2)

/-- JavaScript charAt(0).toUpperCase() + slice(1). -/
def capitalizeFirst (s : String) : String :=
  match s.toList with
  | [] => ""
  | ch :: cs => String.mk (ch.toUpper :: cs)

/-- The patternRef phase of one checklist item: a present, non-empty (truthy)
patternRef that compiles and has a match sets passed. -/
def checkItemRef (o : RegexOracle) (cfg : Config) (c : PatternCache)
    (text : String) (item : StudyDesignCheckItem) : Bool × PatternCache :=
  match item.patternRef with
  | some pr =>
    if pr ≠ "" then
      let r := getCompiledPattern o cfg c pr
      match r.1 with
      | some p => (decide (countMatches o p text > 0), r.2)
      | none => (false, r.2)
    else (false, c)
  | none => (false, c)

/-- The patternRefs phase of one checklist item: if present (even empty) it
overwrites passed with matchesAny. -/
def checkItemStep (o : RegexOracle) (cfg : Config) (c : PatternCache)
    (text : String) (item : StudyDesignCheckItem) : Bool × PatternCache :=
  let passed₁ := checkItemRef o cfg c text item
  match item.patternRefs with
  | some prs => matchesAny o cfg text passed₁.2 prs
  | none => passed₁

/-- The per-item loop of evaluateStudyDesignChecklist: patternRef (a falsy
empty string skips it) can set passed, then patternRefs (if present, even
empty) overwrites passed with matchesAny. -/
def checklistLoop (o : RegexOracle) (cfg : Config) (text : String) :
    PatternCache → List StudyDesignCheckItem → List CheckOutcome × PatternCache
  | c, [] => ([], c)
  | c, item :: rest =>
    let passed₂ := checkItemStep o cfg c text item
    let restR := checklistLoop o cfg text passed₂.2 rest
    ({ checkItem := item.id, label := item.label, passed := passed₂.1,
       severity := item.severity } :: restR.1, restR.2)

/-- evaluateStudyDesignChecklist from statistics-linter.ts. -/
def evaluateStudyDesignChecklist (o : RegexOracle) (cfg : Config)
    (c : PatternCache) (text : String) (st : StudyType) :
    List CheckOutcome × PatternCache :=
  match cfg.statisticsConfig with
  | none => ([], c)
  | some sc => checklistLoop o cfg text c (sc.studyDesignChecklist st)

/-- generateChecklistIssues from statistics-linter.ts. -/
def generateChecklistIssues (outcomes : List CheckOutcome)
    (sectionId : String) (st : StudyType) : List Issue :=
  outcomes.filterMap fun item =>
    if item.passed then none
    else some
      { id := sectionId ++ "-checklist-" ++ item.checkItem,
        severity := item.severity,
        description := capitalizeFirst (studyTypeStr st) ++ " study: " ++
          item.label ++ " not found",
        suggestion := some ("Consider addressing: " ++ item.label) }

/-- One category summation of countStatisticalElements: total matches over
the keys of a category, each via the cached pattern at path "cat.key". -/
def sumCategory (o : RegexOracle) (cfg : Config) (text catName : String) :
    PatternCache → List (String × String) → ℕ × PatternCache
  | c, [] => (0, c)
  | c, entry :: rest =>
    let r := getCompiledPattern o cfg c (catName ++ "." ++ entry.1)
    let here := match r.1 with
      | some p => countMatches o p text
      | none => 0
    let restR := sumCategory o cfg text catName r.2 rest
    (here + restR.1, restR.2)

/-- The all-zero stats block. -/
def zeroStats : StatsCounts :=
  { pValues := 0, effectSizes := 0, confidenceIntervals := 0,
    sampleSizes := 0, statisticalTests := 0 }

/-- countStatisticalElements from statistics-linter.ts. -/
def countStatisticalElements (o : RegexOracle) (cfg : Config)
    (c : PatternCache) (text : String) : StatsCounts × PatternCache :=
  match cfg.statisticsConfig with
  | none => (zeroStats, c)
  | some sc =>
    let pR := getCompiledPattern o cfg c "pValue.reported"
    let pValues := match pR.1 with
      | some p => countMatches o p text
      | none => 0
    let eR := sumCategory o cfg text "effectSizes" pR.2 sc.patterns.effectSizes
    let cR := sumCategory o cfg text "confidenceInterval" eR.2
      sc.patterns.confidenceInterval
    let sR := sumCategory o cfg text "sampleSize" cR.2 sc.patterns.sampleSize
    let tR := sumCategory o cfg text "tests" sR.2 sc.patterns.tests
    ({ pValues := pValues, effectSizes := eR.1, confidenceIntervals := cR.1,
       sampleSizes := sR.1, statisticalTests := tR.1 }, tR.2)

/-- The empty-but-well-formed result lintStatistics returns when the feature
is disabled. -/
def emptyLintResult : StatisticsLintResult :=
  { issues := [], ruleResults := [],
    stats := zeroStats,
    studyType := { type := none, confidence := 0 } }

/-- The rule loop of lintStatistics: skip disabled rules and, when an
enabled list is non-empty, rules not in it; process the rest in order. -/
def rulesLoop (o : RegexOracle) (cfg : Config) (text sectionId : String)
    (enabled disabled : List String) :
    PatternCache → List ValidationRule →
    (List Issue × List RuleResult) × PatternCache
  | c, [] => (([], []), c)
  | c, rule :: rest =>
    if disabled.contains rule.id then
      rulesLoop o cfg text sectionId enabled disabled c rest
    else if enabled ≠ [] ∧ ¬ enabled.contains rule.id then
      rulesLoop o cfg text sectionId enabled disabled c rest
    else
      let pr := processRule o cfg c rule text sectionId
      let restR := rulesLoop o cfg text sectionId enabled disabled pr.2 rest
      ((pr.1 ++ restR.1.1,
        { ruleId := rule.id, ruleName := rule.name,
          issueCount := pr.1.length } :: restR.1.2), restR.2)

/-- lintStatistics from statistics-linter.ts. -/
def lintStatistics (o : RegexOracle) (cfg : Config) (c : PatternCache)
    (text sectionId : String) (opts : LintOptions) :
    StatisticsLintResult × PatternCache :=
  match cfg.statisticsLinter with
  | none => (emptyLintResult, c)
  | some lc =>
    if ¬ lc.enabled then (emptyLintResult, c)
    else
      let enabled := opts.enabledRules.getD lc.enabledRules
      let disabled := opts.disabledRules.getD lc.disabledRules
      let validationRules := match cfg.statisticsConfig with
        | some sc => sc.validationRules
        | none => []
      let rulesR := rulesLoop o cfg text sectionId enabled disabled c
        validationRules
      let detected := detectStudyType o cfg text
      -- study design checklist, gated on confidence and section
      let checklistR :
          Option (List CheckOutcome) × List Issue × PatternCache :=
        match detected.type with
        | some st =>
          if opts.includeChecklist ≠ some false ∧
              detected.confidence > 3/10 ∧
              (sectionId = "methodology" ∨ sectionId = "methods") then
            let cl := evaluateStudyDesignChecklist o cfg rulesR.2 text st
            (some cl.1, generateChecklistIssues cl.1 sectionId st, cl.2)
          else (none, [], rulesR.2)
        | none => (none, [], rulesR.2)
      -- sample size adequacy
      let sampleAdequacy : Option SampleAdequacySummary :=
        if opts.includeSampleAdequacy ≠ some false then
          match getPrimarySampleSize o cfg text,
              detectStatisticalTests o cfg text with
          | some n, t :: _ =>
            if n ≠ 0 then
              let a := assessSampleAdequacy cfg n t.configKey
              some { extracted := a.extracted, required := a.required,
                     adequate := a.adequate,
                     recommendation := a.recommendation }
            else none
          | _, _ => none
        else none
      let statsR := countStatisticalElements o cfg checklistR.2.2 text
      ({ issues := rulesR.1.1 ++ checklistR.2.1,
         ruleResults := rulesR.1.2,
         stats := statsR.1,
         studyType := { type := detected.type,
                        confidence := detected.confidence },
         studyDesignChecklist := checklistR.1,
         sampleAdequacy := sampleAdequacy }, statsR.2)

-- ===========================================================================
-- academic-linter.ts (orchestrator)
-- ===========================================================================

/-- A lexical lint rule: its check is an opaque pure function of text and
section id.  The fixed academicRules list of the source is passed in as a
value; none of its checks read shared mutable state. -/
structure LintRule where
  id : String
  name : String
  description : String
  severity : Severity
  check : String → String → List Issue

/-- AcademicLinterConfig from src/config/types.ts. -/
structure AcademicLinterConfig where
  enabled : Bool
  enabledRules : List String := []
  disabledRules : List String := []

/-- LintResult from academic-linter.ts. -/
structure LintResult where
  issues : List Issue
  ruleResults : List RuleResult
deriving Repr, DecidableEq

/-- The options object of lintAcademicText. -/
structure AcademicOptions where
  enabledRules : Option (List String) := none
  disabledRules : Option (List String) := none

/-- The rule loop of lintAcademicText: run each selected rule once,
collecting its issues and a ruleResults entry. -/
def academicLoop (text sectionId : String) :
    List LintRule → List Issue × List RuleResult
  | [] => ([], [])
  | rule :: rest =>
    let issues := rule.check text sectionId
    let restR := academicLoop text sectionId rest
    (issues ++ restR.1,
     { ruleId := rule.id, ruleName := rule.name,
       issueCount := issues.length } :: restR.2)

/-- lintAcademicText from academic-linter.ts.  `rules` is the fixed
academicRules list. -/
def lintAcademicText (rules : List LintRule)
    (acfg : Option AcademicLinterConfig) (text sectionId : String)
    (opts : AcademicOptions) : LintResult :=
  match acfg with
  | none => { issues := [], ruleResults := [] }
  | some lc =>
    if ¬ lc.enabled then { issues := [], ruleResults := [] }
    else
      let enabled := opts.enabledRules.getD lc.enabledRules
      let disabled := opts.disabledRules.getD lc.disabledRules
      let rulesToRun := rules.filter fun rule =>
        enabled.contains rule.id && ! disabled.contains rule.id
      let r := academicLoop text sectionId rulesToRun
      { issues := r.1, ruleResults := r.2 }

-- ===========================================================================
-- Concrete fixtures: a literal-substring regex oracle and example
-- configurations, used to instantiate the theorems on concrete inputs
-- ===========================================================================

/-- Scanning helper of `literalScan`: the fuel dominates the text length, so
the recursion is structural (and therefore kernel-reducible). -/
def literalScanAux (p : List Char) : ℕ → List Char → ℕ
  | 0, _ => 0
  | _, [] => 0
  | fuel+1, c :: cs =>
    if p.isPrefixOf (c :: cs) then
      1 + literalScanAux p fuel (cs.drop (p.length - 1))
    else literalScanAux p fuel cs

/-- Number of non-overlapping occurrences of the pattern in the text,
scanning left to right — the match count a global regex without special
characters produces. -/
def literalScan (p t : List Char) : ℕ :=
  literalScanAux p t.length t

/-- A concrete regex oracle: every pattern compiles and is matched as a
literal substring (the behaviour of a regex whose source has no special
characters).  The empty pattern is given no matches. -/
def literalOracle : RegexOracle where
  compiles := fun _ => true
  matchAll := fun p t =>
    if p = "" then []
    else List.replicate (literalScan p.toList t.toList) p

/-- Modelled from the spec: the reference configuration document
(analysis-config.yaml) is not among the source files, only its TypeScript
shape is.  This value models the entries the claims exercise:
* effect-size thresholds for cohensD — the spec fixes the boundary
  behaviour (0.25 small, 0.55 medium, 0.90 large, ascending comparison), so
  the conventional Cohen values 0.2 / 0.5 / 0.8 are used;
* thresholds for oddsRatio — the spec fixes only the ordering
  small ≤ medium ≤ large, values here are representative;
* the twoGroupComparison sample-size table resolved by test type "t-test" —
  the spec fixes small > medium > large and 20 < large ≤ 500, values here
  are the conventional two-group recommendations;
* a sample-size pattern and a test pattern, written as literal strings for
  the literal oracle;
* the statistics linter feature is enabled. -/
def referenceConfig : Config where
  statisticsConfig := some
    { patterns :=
        { sampleSize := [("nEquals", "n = 150"), ("participants", "120 participants")]
          tests := [("tTest", "t-test")]
          effectSizes := [("cohensD", "d = 0.65")] }
      studyTypeExperimental := ["randomized", "control group"]
      studyTypeObservational := ["cohort", "cross-sectional"]
      studyTypeQualitative := ["interviews", "thematic"]
      effectSizeThresholds :=
        [("cohensD",
          { small := 1/5, medium := 1/2, large := 4/5,
            description := "Cohen standardized mean difference" }),
         ("oddsRatio",
          { small := 3/2, medium := 5/2, large := 9/2,
            description := "odds ratio distance from 1" })]
      sampleSizeFormulas :=
        [("twoGroupComparison",
          { formula := "two-group comparison"
            description := "independent samples comparison"
            minimumRecommended :=
              { small_effect := 788, medium_effect := 128, large_effect := 52 } })] }
  statisticsLinter := some { enabled := true }

/-- A configuration whose statistics linter feature is disabled. -/
def disabledConfig : Config where
  statisticsConfig := (referenceConfig).statisticsConfig
  statisticsLinter := some { enabled := false }

-- ===========================================================================
-- Helper lemmas
-- ===========================================================================

/-- Fold of max dominates the seed and every element. -/
lemma foldl_max_dominates (xs : List ℕ) (a : ℕ) :
    a ≤ xs.foldl max a ∧ ∀ x ∈ xs, x ≤ xs.foldl max a := by
  induction xs generalizing a with
  | nil => simp
  | cons y ys ih =>
    refine ⟨le_trans (le_max_left a y) (ih (max a y)).1, ?_⟩
    intro x hx
    rcases List.mem_cons.mp hx with rfl | hx
    · exact le_trans (le_max_right a x) (ih (max a x)).1
    · exact (ih (max a y)).2 x hx

/-- Fold of max is the seed or an element. -/
lemma foldl_max_mem (xs : List ℕ) (a : ℕ) :
    xs.foldl max a = a ∨ xs.foldl max a ∈ xs := by
  induction xs generalizing a with
  | nil => simp
  | cons y ys ih =>
    rcases ih (max a y) with h | h
    · rcases max_choice a y with hm | hm
      · left
        simpa [hm] using h
      · right
        simp only [List.foldl_cons]
        rw [h, hm]
        exact List.mem_cons_self _ _
    · right
      exact List.mem_cons_of_mem _ h

/-- Membership through the dedup filter implies membership in the input. -/
lemma mem_of_mem_dedupByValue {e : ExtractedSampleSize} :
    ∀ {l : List ExtractedSampleSize} {seen : List ℕ},
      e ∈ dedupByValue l seen → e ∈ l
  | [], _, h => by simp [dedupByValue] at h
  | r :: rs, seen, h => by
    by_cases hv : r.value ∈ seen
    · simp only [dedupByValue, if_pos hv] at h
      exact List.mem_cons_of_mem _ (mem_of_mem_dedupByValue h)
    · simp only [dedupByValue, if_neg hv] at h
      rcases List.mem_cons.mp h with rfl | h
      · exact List.mem_cons_self _ _
      · exact List.mem_cons_of_mem _ (mem_of_mem_dedupByValue h)

/-- Every sample size a single pattern entry emits is range-checked. -/
lemma sampleMatchesFor_bounds {o : RegexOracle} {text : String}
    {entry : String × String} {e : ExtractedSampleSize}
    (h : e ∈ sampleMatchesFor o text entry) :
    0 < e.value ∧ e.value < 100000 := by
  unfold sampleMatchesFor at h
  rcases hc : compilePatternSafe o entry.2 with _ | p
  · simp [hc] at h
  · rw [hc] at h
    rcases List.mem_filterMap.mp h with ⟨m, _, hm⟩
    rcases hd : firstDigitRun m with _ | ds
    · simp [hd] at hm
    · rw [hd] at hm
      simp only [Option.ite_none_right_eq_some, Option.some.injEq] at hm
      rcases hm with ⟨hb, rfl⟩
      exact hb

/-- parseFloatTok never produces NaN. -/
lemma parseFloatTok_ne_nan (s : String) : parseFloatTok s ≠ .nan := by
  unfold parseFloatTok
  split
  · split <;> simp
  · simp

/-- The absolute value of a non-NaN JsNum is not NaN. -/
lemma JsNum.abs_isNaN_of_ne_nan {v : JsNum} (h : v ≠ .nan) :
    v.abs.isNaN = false := by
  cases v <;> simp [JsNum.abs, JsNum.isNaN] at h ⊢

set_option maxRecDepth 4000 in
/-- Every effect size a single pattern entry emits has a non-NaN absolute
value. -/
lemma effectMatchesFor_value {o : RegexOracle} {text : String}
    {entry : String × String} {e : ExtractedEffectSize}
    (h : e ∈ effectMatchesFor o text entry) : e.value.isNaN = false := by
  unfold effectMatchesFor at h
  rcases List.mem_filterMap.mp h with ⟨m, _, hm⟩
  rcases ht : firstNumberToken m with _ | tok
  · simp [ht] at hm
  · rw [ht] at hm
    simp only [Option.ite_none_left_eq_some, Option.some.injEq] at hm
    obtain ⟨-, he⟩ := hm
    rw [← he]
    exact JsNum.abs_isNaN_of_ne_nan (parseFloatTok_ne_nan tok)

/-- Shape of a successful effectLoop run: the concatenation of the
per-pattern matches. -/
lemma effectLoop_ok_mem {o : RegexOracle} {text : String} :
    ∀ {entries : List (String × String)} {es : List ExtractedEffectSize},
      effectLoop o text entries = .ok es → ∀ e ∈ es,
        ∃ entry ∈ entries, e ∈ effectMatchesFor o text entry
  | [], es, h => by
    simp only [effectLoop, Except.ok.injEq] at h
    subst h
    simp
  | entry :: rest, es, h => by
    simp only [effectLoop] at h
    split at h
    · rcases hrest : effectLoop o text rest with _ | es'
      · rw [hrest] at h
        cases h
      · rw [hrest] at h
        simp only [Except.ok.injEq] at h
        subst h
        intro e he
        rcases List.mem_append.mp he with he | he
        · exact ⟨entry, List.mem_cons_self _ _, he⟩
        · rcases effectLoop_ok_mem hrest e he with ⟨en, hen, hmem⟩
          exact ⟨en, List.mem_cons_of_mem _ hen, hmem⟩
    · cases h

-- ===========================================================================
-- C3: getPrimarySampleSize is the maximum of extractSampleSizes, none when
-- the extraction is empty
-- ===========================================================================

/-- C3: for every input text, getPrimarySampleSize returns none exactly when
extractSampleSizes returns no extraction (in particular it never throws and
never returns zero in that case), and any returned value is the maximum of
the extracted values: it is one of them and dominates all of them. -/
theorem C3_getPrimarySampleSize_max (o : RegexOracle) (cfg : Config)
    (text : String) :
    (getPrimarySampleSize o cfg text = none ↔
      extractSampleSizes o cfg text = []) ∧
    (∀ n, getPrimarySampleSize o cfg text = some n →
      n ∈ (extractSampleSizes o cfg text).map (·.value) ∧
      ∀ v ∈ (extractSampleSizes o cfg text).map (·.value), v ≤ n) := by
  unfold getPrimarySampleSize
  rcases hx : extractSampleSizes o cfg text with _ | ⟨y, ys⟩
  · simp
  · simp only [List.isEmpty_cons, if_neg]
    constructor
    · simp
    · intro n hn
      simp only [Bool.false_eq_true, if_false, Option.some.injEq] at hn
      subst hn
      set xs := ((y :: ys).map (·.value)) with hxs
      constructor
      · rcases foldl_max_mem xs 0 with h | h
        · -- the fold equals the seed 0: then the head value is ≤ 0, so 0 is
          -- itself a value in the list
          have hy : y.value ∈ xs := by
            simp [hxs]
          have := (foldl_max_dominates xs 0).2 y.value hy
          rw [h] at this ⊢
          simpa [Nat.le_zero.mp this] using hy
        · exact h
      · exact (foldl_max_dominates xs 0).2

-- ===========================================================================
-- C4: extraction bounds — corrected
-- ===========================================================================

/-- The number of digits in the counterexample match: enough that the
decimal value exceeds 2^1024 and overflows to Infinity. -/
def bigDigits : String := String.mk (List.replicate 310 '9')

/-- A Cohen-d report whose numeric value has 310 digits. -/
def bigMatch : String := "d = " ++ bigDigits

/-- The text of the counterexample. -/
def bigText : String := "Cohens " ++ bigMatch

/-- A regex oracle in which the cohensD pattern of `bigConfig` finds exactly
the 310-digit report in `bigText` — the behaviour of the real regex
d\s*=\s*-?\d+\.?\d* there. -/
def bigOracle : RegexOracle where
  compiles := fun _ => true
  matchAll := fun p t =>
    if p = "d\\s*=\\s*-?\\d+\\.?\\d*" ∧ t = bigText then [bigMatch] else []

/-- A configuration with one effect-size pattern for Cohen's d. -/
def bigConfig : Config where
  statisticsConfig := some
    { patterns := { effectSizes := [("cohensD", "d\\s*=\\s*-?\\d+\\.?\\d*")] } }

/-- C4, counterexample: the claim asserts every emitted ExtractedEffectSize
has a finite (non-NaN, non-infinite) value and that violating matches are
dropped.  On a text whose Cohen-d report carries a 310-digit number, the
parsed value overflows to Infinity, passes the isNaN guard, and is emitted
rather than dropped. -/
theorem C4_counterexample :
    (extractEffectSizes bigOracle bigConfig bigText).toOption =
      some [{ type := "cohensD", value := .inf, context := bigMatch }] := by
  set_option maxRecDepth 40000 in decide

/-- C4 as amended: every ExtractedSampleSize value is strictly between 0 and
100000 (out-of-range matches are dropped); every ExtractedEffectSize emitted
by a successful extractEffectSizes run has a non-NaN value — but not
necessarily a non-infinite one, as the counterexample shows. -/
theorem C4_extraction_bounds (o : RegexOracle) (cfg : Config) (text : String) :
    (∀ e ∈ extractSampleSizes o cfg text, 0 < e.value ∧ e.value < 100000) ∧
    (∀ es, extractEffectSizes o cfg text = .ok es →
      ∀ e ∈ es, e.value.isNaN = false) := by
  constructor
  · intro e he
    unfold extractSampleSizes at he
    rcases hs : cfg.statisticsConfig with _ | sc
    · simp [hs] at he
    · rw [hs] at he
      have := mem_of_mem_dedupByValue he
      rcases List.mem_flatMap.mp this with ⟨entry, _, hmem⟩
      exact sampleMatchesFor_bounds hmem
  · intro es hes e he
    unfold extractEffectSizes at hes
    rcases hs : cfg.statisticsConfig with _ | sc
    · rw [hs] at hes
      simp only [Except.ok.injEq] at hes
      subst hes
      cases he
    · rw [hs] at hes
      rcases effectLoop_ok_mem hes e he with ⟨entry, _, hmem⟩
      exact effectMatchesFor_value hmem

-- ===========================================================================
-- C5: sample adequacy verdict against the large-effect requirement
-- ===========================================================================

/-- C5: whenever the configuration provides a requirement table for the
resolved test family, ordered large ≤ medium ≤ small, assessSampleAdequacy
returns adequate = false exactly when the extracted N is below the required
N for large effects, and in that case the recommendation says the sample may
only detect large effects; in particular, on the reference t-test table
(modelled from the spec), n = 20 is inadequate and n = 500 adequate. -/
theorem C5_assessSampleAdequacy_verdict (cfg : Config) (testType : String)
    (n : ℕ) (req : SampleSizeRequirements)
    (hreq : getSampleSizeRequirements cfg testType = some req)
    (h1 : req.large ≤ req.medium) (h2 : req.medium ≤ req.small) :
    ((assessSampleAdequacy cfg n testType).adequate = false ↔ n < req.large) ∧
    (n < req.large →
      (assessSampleAdequacy cfg n testType).recommendation =
        "Sample size (n=" ++ toString n ++
          ") may only detect large effects. " ++
          ("For medium effects, need n≈" ++ toString req.medium ++
           "; for small effects, need n≈" ++ toString req.small ++ ".")) ∧
    (assessSampleAdequacy referenceConfig 20 "t-test").adequate = false ∧
    (assessSampleAdequacy referenceConfig 500 "t-test").adequate = true := by
  refine ⟨?_, ?_, by decide, by decide⟩
  · simp only [assessSampleAdequacy, hreq]
    split_ifs with ha hb hc <;> simp [ha, *]
  · intro hn
    simp only [assessSampleAdequacy, hreq, if_pos hn]
    simp only [String.append_assoc]

/-- C5, witness: the general verdict applied to the reference t-test table
at n = 20 (the table is 788 / 128 / 52, so the verdict is inadequate exactly
because 20 < 52). -/
theorem C5_witness :
    ((assessSampleAdequacy referenceConfig 20 "t-test").adequate = false ↔
      20 < 52) :=
  (C5_assessSampleAdequacy_verdict referenceConfig "t-test" 20
    { small := 788, medium := 128, large := 52,
      formula := "two-group comparison",
      description := "independent samples comparison" }
    (by decide) (by decide) (by decide)).1

-- ===========================================================================
-- C6: missing-configuration lookups return neutral defaults
-- ===========================================================================

/-- C6: a test type with no requirement table gets adequate = true with the
explanatory recommendation (never inadequate), and a statistic type with no
threshold table gets the templated medium interpretation — neither function
fails. -/
theorem C6_missing_config_neutral :
    (∀ cfg n tt, getSampleSizeRequirements cfg tt = none →
      assessSampleAdequacy cfg n tt =
        { adequate := true, extracted := n,
          required := { small := 0, medium := 0, large := 0 },
          recommendation :=
            "Unable to determine sample size requirements for this test type.",
          testType := tt }) ∧
    (∀ cfg sc v ty, cfg.statisticsConfig = some sc →
      sc.effectSizeThresholds.lookup ty = none →
      interpretEffectSize cfg v ty =
        { magnitude := .medium,
          interpretation := thresholdsNotConfiguredMsg v ty,
          percentile := none }) := by
  constructor
  · intro cfg n tt h
    simp [assessSampleAdequacy, h]
  · intro cfg sc v ty hsc hl
    simp [interpretEffectSize, hsc, hl]

-- ===========================================================================
-- C1: effect size classification by ascending thresholds
-- ===========================================================================

/-- The ascending comparison, characterised as four interval conditions. -/
lemma classifyAsc_iff (q : ℚ) (t : EffectSizeThreshold)
    (h1 : t.small ≤ t.medium) (h2 : t.medium ≤ t.large) :
    (classifyAsc q t = .negligible ↔ q < t.small) ∧
    (classifyAsc q t = .small ↔ t.small ≤ q ∧ q < t.medium) ∧
    (classifyAsc q t = .medium ↔ t.medium ≤ q ∧ q < t.large) ∧
    (classifyAsc q t = .large ↔ t.large ≤ q) := by
  unfold classifyAsc
  split_ifs with ha hb hc <;>
    refine ⟨?_, ?_, ?_, ?_⟩ <;> simp_all <;>
    first
      | linarith
      | (constructor <;> linarith)
      | (intro h; linarith)
      | (rintro ⟨u, v⟩; linarith)

/-- The ascending comparison is monotone in its argument. -/
lemma classifyAsc_mono (t : EffectSizeThreshold) {x y : ℚ} (hxy : x ≤ y) :
    magRank (classifyAsc x t) ≤ magRank (classifyAsc y t) := by
  unfold classifyAsc
  split_ifs <;> simp [magRank] <;> linarith

/-- C1: for a statistic type whose configured thresholds satisfy
small ≤ medium ≤ large, interpretEffectSize classifies |value| by ascending
comparison; for "oddsRatio" with value ≠ 0 the compared quantity is
max(value, 1/value) (at value = 0 JavaScript gives 1/0 = Infinity, beyond
every threshold); consequently the magnitude class for a non-oddsRatio type
such as "cohensD" is monotonically non-decreasing in the value from 0
upward. -/
theorem C1_interpretEffectSize_thresholds (cfg : Config)
    (sc : StatisticsConfig) (t : EffectSizeThreshold) (type : String)
    (hsc : cfg.statisticsConfig = some sc)
    (ht : sc.effectSizeThresholds.lookup type = some t)
    (h1 : t.small ≤ t.medium) (h2 : t.medium ≤ t.large) :
    (∀ value : ℚ, type ≠ "oddsRatio" →
      ((interpretEffectSize cfg value type).magnitude = .negligible ↔
        |value| < t.small) ∧
      ((interpretEffectSize cfg value type).magnitude = .small ↔
        t.small ≤ |value| ∧ |value| < t.medium) ∧
      ((interpretEffectSize cfg value type).magnitude = .medium ↔
        t.medium ≤ |value| ∧ |value| < t.large) ∧
      ((interpretEffectSize cfg value type).magnitude = .large ↔
        t.large ≤ |value|)) ∧
    (∀ value : ℚ, type = "oddsRatio" → value ≠ 0 →
      ((interpretEffectSize cfg value type).magnitude = .negligible ↔
        max value (1/value) < t.small) ∧
      ((interpretEffectSize cfg value type).magnitude = .small ↔
        t.small ≤ max value (1/value) ∧ max value (1/value) < t.medium) ∧
      ((interpretEffectSize cfg value type).magnitude = .medium ↔
        t.medium ≤ max value (1/value) ∧ max value (1/value) < t.large) ∧
      ((interpretEffectSize cfg value type).magnitude = .large ↔
        t.large ≤ max value (1/value))) ∧
    (type ≠ "oddsRatio" → ∀ x y : ℚ, 0 ≤ x → x ≤ y →
      magRank (interpretEffectSize cfg x type).magnitude ≤
        magRank (interpretEffectSize cfg y type).magnitude) := by
  refine ⟨?_, ?_, ?_⟩
  · intro value hty
    simp only [interpretEffectSize, hsc, ht, if_neg hty]
    exact classifyAsc_iff |value| t h1 h2
  · intro value hty hv
    simp only [interpretEffectSize, hsc, ht, if_pos hty, if_neg hv]
    exact classifyAsc_iff (max value (1/value)) t h1 h2
  · intro hty x y hx hxy
    simp only [interpretEffectSize, hsc, ht, if_neg hty]
    have hax : |x| = x := abs_of_nonneg hx
    have hay : |y| = y := abs_of_nonneg (le_trans hx hxy)
    rw [hax, hay]
    exact classifyAsc_mono t hxy

/-- C1, witness: the general classification at the reference configuration
(modelled from the spec): monotonicity for "cohensD" between 0.25 and 0.9,
and the "oddsRatio" small-band characterisation at value 2. -/
theorem C1_witness :
    (magRank (interpretEffectSize referenceConfig (1/4) "cohensD").magnitude ≤
      magRank (interpretEffectSize referenceConfig (9/10) "cohensD").magnitude) ∧
    ((interpretEffectSize referenceConfig 2 "oddsRatio").magnitude = .small ↔
      3/2 ≤ max (2:ℚ) (1/2) ∧ max (2:ℚ) (1/2) < 5/2) := by
  constructor
  · exact (C1_interpretEffectSize_thresholds referenceConfig _ _ "cohensD"
      rfl rfl (by norm_num) (by norm_num)).2.2 (by decide) (1/4) (9/10)
      (by norm_num) (by norm_num)
  · exact ((C1_interpretEffectSize_thresholds referenceConfig _ _ "oddsRatio"
      rfl rfl (by norm_num) (by norm_num)).2.1 2 rfl (by norm_num)).2.1

-- ===========================================================================
-- C2 and C10: study type detection
-- ===========================================================================

/-- The max-selection fold of detectStudyType, characterised: the highest
count wins, ties broken in the declared order experimental > observational >
qualitative. -/
lemma studyBest (e ob q : ℕ) :
    ((([(StudyType.experimental, e), (StudyType.observational, ob),
       (StudyType.qualitative, q)]).foldl
       (fun acc x => if x.2 > acc.2 then x else acc)
       (StudyType.experimental, 0))) =
    (if ob ≤ e ∧ q ≤ e then (StudyType.experimental, e)
     else if q ≤ ob then (StudyType.observational, ob)
     else (StudyType.qualitative, q)) := by
  simp only [List.foldl]
  split_ifs <;> simp_all [Prod.ext_iff] <;> omega

/-- Characterisation of detectStudyType, shared by the claims about it:
zero total matches give the unknown result; otherwise the winner is the
highest count with ties broken in declaration order, and the confidence is
the winning count over the total. -/
lemma detectStudyType_spec (o : RegexOracle) (cfg : Config)
    (sc : StatisticsConfig) (text : String)
    (hsc : cfg.statisticsConfig = some sc) :
    ((countTypeMatches o (jsToLowerCase text) sc.studyTypeExperimental).1 +
       (countTypeMatches o (jsToLowerCase text) sc.studyTypeObservational).1 +
       (countTypeMatches o (jsToLowerCase text) sc.studyTypeQualitative).1 = 0 →
      detectStudyType o cfg text =
        { type := none, confidence := 0, matchedPatterns := [] }) ∧
    ((countTypeMatches o (jsToLowerCase text) sc.studyTypeExperimental).1 +
       (countTypeMatches o (jsToLowerCase text) sc.studyTypeObservational).1 +
       (countTypeMatches o (jsToLowerCase text) sc.studyTypeQualitative).1 ≠ 0 →
      (detectStudyType o cfg text).type =
        some
          (if (countTypeMatches o (jsToLowerCase text) sc.studyTypeObservational).1 ≤
                (countTypeMatches o (jsToLowerCase text) sc.studyTypeExperimental).1 ∧
              (countTypeMatches o (jsToLowerCase text) sc.studyTypeQualitative).1 ≤
                (countTypeMatches o (jsToLowerCase text) sc.studyTypeExperimental).1
           then StudyType.experimental
           else if (countTypeMatches o (jsToLowerCase text) sc.studyTypeQualitative).1 ≤
                (countTypeMatches o (jsToLowerCase text) sc.studyTypeObservational).1
           then StudyType.observational
           else StudyType.qualitative) ∧
      (detectStudyType o cfg text).confidence =
        ((max (countTypeMatches o (jsToLowerCase text) sc.studyTypeExperimental).1
            (max (countTypeMatches o (jsToLowerCase text) sc.studyTypeObservational).1
              (countTypeMatches o (jsToLowerCase text) sc.studyTypeQualitative).1) : ℕ) : ℚ) /
        (((countTypeMatches o (jsToLowerCase text) sc.studyTypeExperimental).1 +
            (countTypeMatches o (jsToLowerCase text) sc.studyTypeObservational).1 +
            (countTypeMatches o (jsToLowerCase text) sc.studyTypeQualitative).1 : ℕ) : ℚ)) := by
  set e := countTypeMatches o (jsToLowerCase text) sc.studyTypeExperimental with he
  set ob := countTypeMatches o (jsToLowerCase text) sc.studyTypeObservational with hob
  set q := countTypeMatches o (jsToLowerCase text) sc.studyTypeQualitative with hq
  constructor
  · intro h0
    have h1 : e.1 = 0 := by omega
    have h2 : ob.1 = 0 := by omega
    have h3 : q.1 = 0 := by omega
    simp only [detectStudyType, hsc, ← he, ← hob, ← hq, studyBest]
    simp [h1, h2, h3]
  · intro h0
    have htotal : 0 < e.1 + ob.1 + q.1 := Nat.pos_of_ne_zero h0
    simp only [detectStudyType, hsc, ← he, ← hob, ← hq, studyBest]
    by_cases hA : ob.1 ≤ e.1 ∧ q.1 ≤ e.1
    · have hne : ¬ e.1 = 0 := by omega
      have hmax : max e.1 (max ob.1 q.1) = e.1 := by omega
      simp only [if_pos hA, hne, if_false]
      refine ⟨trivial, ?_⟩
      rw [hmax, if_pos htotal]
      refine min_eq_left ?_
      rw [div_le_one (by exact_mod_cast htotal)]
      exact_mod_cast (by omega : e.1 ≤ e.1 + ob.1 + q.1)
    · by_cases hB : q.1 ≤ ob.1
      · have hne : ¬ ob.1 = 0 := by omega
        have hmax : max e.1 (max ob.1 q.1) = ob.1 := by omega
        simp only [if_neg hA, if_pos hB, hne, if_false]
        refine ⟨trivial, ?_⟩
        rw [hmax, if_pos htotal]
        refine min_eq_left ?_
        rw [div_le_one (by exact_mod_cast htotal)]
        exact_mod_cast (by omega : ob.1 ≤ e.1 + ob.1 + q.1)
      · have hne : ¬ q.1 = 0 := by omega
        have hmax : max e.1 (max ob.1 q.1) = q.1 := by omega
        simp only [if_neg hA, if_neg hB, hne, if_false]
        refine ⟨trivial, ?_⟩
        rw [hmax, if_pos htotal]
        refine min_eq_left ?_
        rw [div_le_one (by exact_mod_cast htotal)]
        exact_mod_cast (by omega : q.1 ≤ e.1 + ob.1 + q.1)

/-- C2: detectStudyType returns the unknown zero-confidence result when no
marker pattern matches; otherwise the category with the highest match count
wins, ties broken in the order experimental > observational > qualitative,
and the confidence is the winning count divided by the total count. -/
theorem C2_detectStudyType_scoring (o : RegexOracle) (cfg : Config)
    (sc : StatisticsConfig) (text : String)
    (hsc : cfg.statisticsConfig = some sc) :
    ((countTypeMatches o (jsToLowerCase text) sc.studyTypeExperimental).1 +
       (countTypeMatches o (jsToLowerCase text) sc.studyTypeObservational).1 +
       (countTypeMatches o (jsToLowerCase text) sc.studyTypeQualitative).1 = 0 →
      detectStudyType o cfg text =
        { type := none, confidence := 0, matchedPatterns := [] }) ∧
    ((countTypeMatches o (jsToLowerCase text) sc.studyTypeExperimental).1 +
       (countTypeMatches o (jsToLowerCase text) sc.studyTypeObservational).1 +
       (countTypeMatches o (jsToLowerCase text) sc.studyTypeQualitative).1 ≠ 0 →
      (detectStudyType o cfg text).type =
        some
          (if (countTypeMatches o (jsToLowerCase text) sc.studyTypeObservational).1 ≤
                (countTypeMatches o (jsToLowerCase text) sc.studyTypeExperimental).1 ∧
              (countTypeMatches o (jsToLowerCase text) sc.studyTypeQualitative).1 ≤
                (countTypeMatches o (jsToLowerCase text) sc.studyTypeExperimental).1
           then StudyType.experimental
           else if (countTypeMatches o (jsToLowerCase text) sc.studyTypeQualitative).1 ≤
                (countTypeMatches o (jsToLowerCase text) sc.studyTypeObservational).1
           then StudyType.observational
           else StudyType.qualitative) ∧
      (detectStudyType o cfg text).confidence =
        ((max (countTypeMatches o (jsToLowerCase text) sc.studyTypeExperimental).1
            (max (countTypeMatches o (jsToLowerCase text) sc.studyTypeObservational).1
              (countTypeMatches o (jsToLowerCase text) sc.studyTypeQualitative).1) : ℕ) : ℚ) /
        (((countTypeMatches o (jsToLowerCase text) sc.studyTypeExperimental).1 +
            (countTypeMatches o (jsToLowerCase text) sc.studyTypeObservational).1 +
            (countTypeMatches o (jsToLowerCase text) sc.studyTypeQualitative).1 : ℕ) : ℚ)) :=
  detectStudyType_spec o cfg sc text hsc

/-- C2, witness: on a text matching both experimental markers of the
reference configuration and no others, the detected type is experimental. -/
theorem C2_witness :
    (detectStudyType literalOracle referenceConfig
        "A randomized trial with a control group").type =
      some StudyType.experimental := by
  have h := (C2_detectStudyType_scoring literalOracle referenceConfig _
    "A randomized trial with a control group" rfl).2 (by decide)
  rw [h.1]
  decide

/-- C10: whenever detectStudyType detects a type (not unknown), the
confidence is at least 1/3 (the winning count is at least a third of the
total) and at most 1; consequently the lintStatistics checklist gate
confidence > 0.3 passes, so in a methodology or methods section with the
checklist not opted out the study design checklist is evaluated. -/
theorem C10_confidence_gate (o : RegexOracle) (cfg : Config) (text : String)
    (h : (detectStudyType o cfg text).type ≠ none) :
    1/3 ≤ (detectStudyType o cfg text).confidence ∧
    (detectStudyType o cfg text).confidence ≤ 1 ∧
    3/10 < (detectStudyType o cfg text).confidence ∧
    (∀ lc c sec opts, cfg.statisticsLinter = some lc → lc.enabled = true →
      opts.includeChecklist ≠ some false →
      (sec = "methodology" ∨ sec = "methods") →
      ((lintStatistics o cfg c text sec opts).1.studyDesignChecklist).isSome =
        true) := by
  rcases hsc : cfg.statisticsConfig with _ | sc
  · exact absurd (by simp [detectStudyType, hsc]) h
  · have spec := detectStudyType_spec o cfg sc text hsc
    set e := (countTypeMatches o (jsToLowerCase text) sc.studyTypeExperimental).1 with he
    set ob := (countTypeMatches o (jsToLowerCase text) sc.studyTypeObservational).1 with hob
    set q := (countTypeMatches o (jsToLowerCase text) sc.studyTypeQualitative).1 with hq
    by_cases h0 : e + ob + q = 0
    · exact absurd (by rw [spec.1 h0]) h
    · obtain ⟨hty, hconf⟩ := spec.2 h0
      have htotal : 0 < e + ob + q := Nat.pos_of_ne_zero h0
      have hc1 : (1:ℚ)/3 ≤ ((max e (max ob q) : ℕ) : ℚ) / ((e + ob + q : ℕ) : ℚ) := by
        rw [div_le_div_iff (by norm_num) (by exact_mod_cast htotal)]
        exact_mod_cast (by omega : 1 * (e + ob + q) ≤ max e (max ob q) * 3)
      have hc2 : ((max e (max ob q) : ℕ) : ℚ) / ((e + ob + q : ℕ) : ℚ) ≤ 1 := by
        rw [div_le_one (by exact_mod_cast htotal)]
        exact_mod_cast (by omega : max e (max ob q) ≤ e + ob + q)
      have hb1 : (1:ℚ)/3 ≤ (detectStudyType o cfg text).confidence := by
        rw [hconf]; exact hc1
      have hb2 : (detectStudyType o cfg text).confidence ≤ 1 := by
        rw [hconf]; exact hc2
      have hb3 : (3:ℚ)/10 < (detectStudyType o cfg text).confidence := by
        have : (3:ℚ)/10 < 1/3 := by norm_num
        linarith
      refine ⟨hb1, hb2, hb3, ?_⟩
      intro lc c sec opts hlc hen hic hsec
      obtain ⟨st, hst⟩ : ∃ st, (detectStudyType o cfg text).type = some st :=
        Option.ne_none_iff_exists'.mp h
      simp only [lintStatistics, hlc, hen, not_true, if_false, hst]
      rw [if_pos ⟨hic, hb3, hsec⟩]
      simp

/-- C10, witness: on a text detected as experimental, linting the
methodology section with default options evaluates the checklist. -/
theorem C10_witness :
    ((lintStatistics literalOracle referenceConfig []
        "A randomized trial with a control group" "methodology"
        {}).1.studyDesignChecklist).isSome = true :=
  (C10_confidence_gate literalOracle referenceConfig
    "A randomized trial with a control group" (by decide)).2.2.2
    { enabled := true } [] "methodology" {} rfl rfl (by decide) (Or.inl rfl)

-- ===========================================================================
-- Cache coherence: the compiled-pattern cache only ever holds what a fresh
-- compilation of the same path would produce
-- ===========================================================================

/-- A cache state is coherent when every entry is the fresh compilation of
its key.  The empty cache is coherent and every function below preserves
coherence, so every reachable cache state is coherent. -/
def Coherent (o : RegexOracle) (cfg : Config) (c : PatternCache) : Prop :=
  ∀ p s, cacheFind c p = some s → freshPattern o cfg p = some s

lemma coherent_nil (o : RegexOracle) (cfg : Config) : Coherent o cfg [] := by
  intro p s h
  cases h

lemma getCompiledPattern_fst {o : RegexOracle} {cfg : Config}
    {c : PatternCache} (hc : Coherent o cfg c) (path : String) :
    (getCompiledPattern o cfg c path).1 = freshPattern o cfg path := by
  unfold getCompiledPattern
  cases hfind : cacheFind c path with
  | some s => simp [hc path s hfind]
  | none => cases hfp : freshPattern o cfg path <;> simp

lemma getCompiledPattern_coherent {o : RegexOracle} {cfg : Config}
    {c : PatternCache} (hc : Coherent o cfg c) (path : String) :
    Coherent o cfg (getCompiledPattern o cfg c path).2 := by
  unfold getCompiledPattern
  cases hfind : cacheFind c path with
  | some s => simpa using hc
  | none =>
    cases hfp : freshPattern o cfg path with
    | none => simpa using hc
    | some s =>
      simp only
      intro p' s' hfind'
      unfold cacheFind at hfind'
      by_cases hpp : path = p'
      · subst hpp
        simp only [if_pos rfl, Option.some.injEq] at hfind'
        rw [← hfind']
        exact hfp
      · rw [if_neg hpp] at hfind'
        exact hc p' s' hfind'

/-- The pure counterpart of a true missingAll run: every path that resolves
and compiles has zero matches in the text. -/
def missingAllFresh (o : RegexOracle) (cfg : Config) (text : String)
    (paths : List String) : Prop :=
  ∀ path ∈ paths, ∀ p, freshPattern o cfg path = some p →
    countMatches o p text = 0

/-- matchesAny: the result does not depend on the coherent cache state, and
coherence is preserved. -/
lemma matchesAny_spec {o : RegexOracle} {cfg : Config} {text : String} :
    ∀ (paths : List String) (c c' : PatternCache), Coherent o cfg c →
      Coherent o cfg c' →
      (matchesAny o cfg text c paths).1 = (matchesAny o cfg text c' paths).1 ∧
      Coherent o cfg (matchesAny o cfg text c paths).2
  | [], c, c', hc, hc' => ⟨rfl, hc⟩
  | path :: rest, c, c', hc, hc' => by
    simp only [matchesAny]
    rw [getCompiledPattern_fst hc, getCompiledPattern_fst hc']
    cases hfp : freshPattern o cfg path with
    | some p =>
      simp only
      by_cases hcm : countMatches o p text > 0
      · simp only [hcm, if_pos]
        exact ⟨trivial, getCompiledPattern_coherent hc path⟩
      · simp only [hcm, if_neg, if_false]
        exact matchesAny_spec rest _ _ (getCompiledPattern_coherent hc path)
          (getCompiledPattern_coherent hc' path)
    | none =>
      exact matchesAny_spec rest _ _ (getCompiledPattern_coherent hc path)
        (getCompiledPattern_coherent hc' path)

/-- missingAll: cache independence, coherence preservation, and the
characterisation by `missingAllFresh`. -/
lemma missingAll_spec {o : RegexOracle} {cfg : Config} {text : String} :
    ∀ (paths : List String) (c c' : PatternCache), Coherent o cfg c →
      Coherent o cfg c' →
      (missingAll o cfg text c paths).1 = (missingAll o cfg text c' paths).1 ∧
      Coherent o cfg (missingAll o cfg text c paths).2 ∧
      ((missingAll o cfg text c paths).1 = true ↔
        missingAllFresh o cfg text paths)
  | [], c, c', hc, hc' => by
    refine ⟨rfl, hc, ?_⟩
    simp [missingAll, missingAllFresh]
  | path :: rest, c, c', hc, hc' => by
    simp only [missingAll]
    rw [getCompiledPattern_fst hc, getCompiledPattern_fst hc']
    cases hfp : freshPattern o cfg path with
    | some p =>
      simp only
      by_cases hcm : countMatches o p text > 0
      · simp only [hcm, if_pos]
        refine ⟨trivial, getCompiledPattern_coherent hc path, ?_⟩
        constructor
        · intro h
          cases h
        · intro h
          have := h path (List.mem_cons_self _ _) p hfp
          omega
      · simp only [hcm, if_neg, if_false]
        obtain ⟨h1, h2, h3⟩ := missingAll_spec rest
          (getCompiledPattern o cfg c path).2 (getCompiledPattern o cfg c' path).2
          (getCompiledPattern_coherent hc path)
          (getCompiledPattern_coherent hc' path)
        refine ⟨h1, h2, ?_⟩
        rw [h3]
        unfold missingAllFresh
        constructor
        · intro h pa hpa pp hpp
          rcases List.mem_cons.mp hpa with rfl | hpa
          · rw [hfp] at hpp
            cases hpp
            omega
          · exact h pa hpa pp hpp
        · intro h pa hpa pp hpp
          exact h pa (List.mem_cons_of_mem _ hpa) pp hpp
    | none =>
      obtain ⟨h1, h2, h3⟩ := missingAll_spec rest
        (getCompiledPattern o cfg c path).2 (getCompiledPattern o cfg c' path).2
        (getCompiledPattern_coherent hc path)
        (getCompiledPattern_coherent hc' path)
      refine ⟨h1, h2, ?_⟩
      rw [h3]
      unfold missingAllFresh
      constructor
      · intro h pa hpa pp hpp
        rcases List.mem_cons.mp hpa with rfl | hpa
        · rw [hfp] at hpp
          cases hpp
        · exact h pa hpa pp hpp
      · intro h pa hpa pp hpp
        exact h pa (List.mem_cons_of_mem _ hpa) pp hpp

/-- The matchPatterns loop: cache independence and coherence. -/
lemma matchPatternsLoop_spec {o : RegexOracle} {cfg : Config} {text : String} :
    ∀ (paths : List String) (c c' : PatternCache), Coherent o cfg c →
      Coherent o cfg c' →
      (matchPatternsLoop o cfg text c paths).1 =
        (matchPatternsLoop o cfg text c' paths).1 ∧
      Coherent o cfg (matchPatternsLoop o cfg text c paths).2
  | [], c, c', hc, hc' => ⟨rfl, hc⟩
  | path :: rest, c, c', hc, hc' => by
    simp only [matchPatternsLoop]
    rw [getCompiledPattern_fst hc, getCompiledPattern_fst hc']
    cases hfp : freshPattern o cfg path with
    | some p =>
      simp only
      by_cases hcm : (findMatches o p text).length > 0
      · simp only [hcm, if_pos]
        exact ⟨trivial, getCompiledPattern_coherent hc path⟩
      · simp only [hcm, if_neg, if_false]
        exact matchPatternsLoop_spec rest _ _ (getCompiledPattern_coherent hc path)
          (getCompiledPattern_coherent hc' path)
    | none =>
      exact matchPatternsLoop_spec rest _ _ (getCompiledPattern_coherent hc path)
        (getCompiledPattern_coherent hc' path)

/-- evaluateCondition: cache independence and coherence preservation. -/
lemma evaluateCondition_spec {o : RegexOracle} {cfg : Config}
    (cond : ValidationRuleCondition) (text sec : String)
    {c c' : PatternCache} (hc : Coherent o cfg c) (hc' : Coherent o cfg c') :
    (evaluateCondition o cfg c cond text sec).1 =
      (evaluateCondition o cfg c' cond text sec).1 ∧
    Coherent o cfg (evaluateCondition o cfg c cond text sec).2 := by
  unfold evaluateCondition
  by_cases hsb : sectionsBlocked cond sec
  · simp only [hsb, if_true]
    exact ⟨by trivial, hc⟩
  · simp only [hsb, Bool.false_eq_true, if_false]
    cases hmp : matchPatternGuard cond with
    | some mp =>
      simp only
      rw [getCompiledPattern_fst hc, getCompiledPattern_fst hc']
      cases hfp : freshPattern o cfg mp with
      | some p =>
        simp only
        by_cases hl : (findMatches o p text).length > 0
        · simp only [hl, if_pos]
          exact ⟨by trivial, getCompiledPattern_coherent hc mp⟩
        · simp only [hl, if_neg, if_false]
          exact ⟨by trivial, getCompiledPattern_coherent hc mp⟩
      | none =>
        exact ⟨by trivial, getCompiledPattern_coherent hc mp⟩
    | none =>
      cases hmps : cond.matchPatterns with
      | some lst =>
        exact matchPatternsLoop_spec lst c c' hc hc'
      | none =>
        cases hg : countCheckGuard cond with
        | some pth =>
          simp only
          rw [getCompiledPattern_fst hc, getCompiledPattern_fst hc']
          cases hfp : freshPattern o cfg pth.1 with
          | some p =>
            simp only
            by_cases hcount : countMatches o p text ≥ pth.2
            · simp only [hcount, if_pos]
              cases hma : cond.missingAllPatterns with
              | some mAll =>
                simp only
                obtain ⟨h1, h2, _⟩ := missingAll_spec mAll
                  (getCompiledPattern o cfg c pth.1).2
                  (getCompiledPattern o cfg c' pth.1).2
                  (getCompiledPattern_coherent hc pth.1)
                  (getCompiledPattern_coherent hc' pth.1)
                rw [h1]
                by_cases hmiss :
                    (missingAll o cfg text (getCompiledPattern o cfg c' pth.1).2 mAll).1
                · simp only [hmiss, if_pos]
                  refine ⟨by trivial, ?_⟩
                  rw [← h1] at hmiss
                  simpa [hmiss] using h2
                · simp only [hmiss, Bool.false_eq_true, if_false]
                  refine ⟨by trivial, ?_⟩
                  rw [← h1] at hmiss
                  simpa [hmiss] using h2
              | none =>
                exact ⟨by trivial, getCompiledPattern_coherent hc pth.1⟩
            · simp only [hcount, if_neg, if_false]
              exact ⟨by trivial, getCompiledPattern_coherent hc pth.1⟩
          | none =>
            exact ⟨by trivial, getCompiledPattern_coherent hc pth.1⟩
        | none =>
          by_cases hty : cond.type = some CondType.sampleSizeCheck
          · simp only [hty, if_pos]
            rcases getPrimarySampleSize o cfg text with _ | n <;>
              rcases detectStatisticalTests o cfg text with _ | ⟨t, ts⟩ <;>
              simp only <;>
              first
                | exact ⟨by trivial, hc⟩
                | (split_ifs <;> exact ⟨by trivial, hc⟩)
          · simp only [hty, if_neg, if_false]
            cases hha : cond.hasAnyPattern with
            | some ha =>
              cases hma : cond.missingAllPatterns with
              | some mAll =>
                simp only
                obtain ⟨ha1, ha2⟩ := matchesAny_spec ha c c' hc hc'
                have ha2' : Coherent o cfg (matchesAny o cfg text c' ha).2 :=
                  (matchesAny_spec ha c' c' hc' hc').2
                rw [ha1]
                by_cases hany : (matchesAny o cfg text c' ha).1
                · simp only [hany, if_pos]
                  obtain ⟨h1, h2, _⟩ := missingAll_spec mAll
                    (matchesAny o cfg text c ha).2
                    (matchesAny o cfg text c' ha).2 ha2 ha2'
                  rw [h1]
                  by_cases hmiss :
                      (missingAll o cfg text (matchesAny o cfg text c' ha).2 mAll).1
                  · simp only [hmiss, if_pos]
                    refine ⟨by trivial, ?_⟩
                    rw [← h1] at hmiss
                    simpa [hmiss] using h2
                  · simp only [hmiss, Bool.false_eq_true, if_false]
                    refine ⟨by trivial, ?_⟩
                    rw [← h1] at hmiss
                    simpa [hmiss] using h2
                · simp only [hany, Bool.false_eq_true, if_false]
                  exact ⟨by trivial, ha2⟩
              | none =>
                exact ⟨by trivial, hc⟩
            | none =>
              cases cond.missingAllPatterns <;> exact ⟨by trivial, hc⟩

/-- processRule: cache independence and coherence preservation. -/
lemma processRule_spec {o : RegexOracle} {cfg : Config}
    (rule : ValidationRule) (text sec : String)
    {c c' : PatternCache} (hc : Coherent o cfg c) (hc' : Coherent o cfg c') :
    (processRule o cfg c rule text sec).1 =
      (processRule o cfg c' rule text sec).1 ∧
    Coherent o cfg (processRule o cfg c rule text sec).2 := by
  simp only [processRule]
  obtain ⟨h1, h2⟩ := evaluateCondition_spec rule.condition text sec hc hc'
  rw [h1]
  rcases hr : (evaluateCondition o cfg c' rule.condition text sec).1 with ⟨trig, ml⟩
  cases trig
  · simp only [Bool.false_eq_true, not_false_iff, if_pos]
    exact ⟨by trivial, h2⟩
  · simp only [not_true, if_false]
    cases ml with
    | none => exact ⟨by trivial, h2⟩
    | some ms =>
      simp only
      by_cases hl : ms.length > 0
      · simp only [hl, if_pos]
        exact ⟨by trivial, h2⟩
      · simp only [hl, if_neg, if_false]
        exact ⟨by trivial, h2⟩

/-- The rule loop of lintStatistics: cache independence and coherence. -/
lemma rulesLoop_spec {o : RegexOracle} {cfg : Config}
    (text sec : String) (enabled disabled : List String) :
    ∀ (rules : List ValidationRule) (c c' : PatternCache),
      Coherent o cfg c → Coherent o cfg c' →
      (rulesLoop o cfg text sec enabled disabled c rules).1 =
        (rulesLoop o cfg text sec enabled disabled c' rules).1 ∧
      Coherent o cfg (rulesLoop o cfg text sec enabled disabled c rules).2
  | [], c, c', hc, hc' => ⟨rfl, hc⟩
  | rule :: rest, c, c', hc, hc' => by
    simp only [rulesLoop]
    by_cases hd : disabled.contains rule.id = true
    · rw [if_pos hd, if_pos hd]
      exact rulesLoop_spec text sec enabled disabled rest c c' hc hc'
    · rw [if_neg hd, if_neg hd]
      by_cases he : enabled ≠ [] ∧ ¬ enabled.contains rule.id = true
      · rw [if_pos he, if_pos he]
        exact rulesLoop_spec text sec enabled disabled rest c c' hc hc'
      · rw [if_neg he, if_neg he]
        obtain ⟨hp1, hp2⟩ := processRule_spec rule text sec hc hc'
        have hp2' : Coherent o cfg (processRule o cfg c' rule text sec).2 :=
          (processRule_spec rule text sec hc' hc').2
        obtain ⟨hr1, hr2⟩ := rulesLoop_spec text sec enabled disabled rest
          (processRule o cfg c rule text sec).2
          (processRule o cfg c' rule text sec).2 hp2 hp2'
        refine ⟨?_, hr2⟩
        rw [hp1, hr1]

/-- The patternRef phase: cache independence and coherence. -/
lemma checkItemRef_spec {o : RegexOracle} {cfg : Config} (text : String)
    (item : StudyDesignCheckItem) {c c' : PatternCache}
    (hc : Coherent o cfg c) (hc' : Coherent o cfg c') :
    (checkItemRef o cfg c text item).1 = (checkItemRef o cfg c' text item).1 ∧
    Coherent o cfg (checkItemRef o cfg c text item).2 := by
  simp only [checkItemRef]
  cases item.patternRef with
  | some pr =>
    dsimp only
    by_cases hpr : pr ≠ ""
    · rw [if_pos hpr, if_pos hpr]
      rw [getCompiledPattern_fst hc, getCompiledPattern_fst hc']
      cases freshPattern o cfg pr <;>
        exact ⟨by trivial, getCompiledPattern_coherent hc pr⟩
    · rw [if_neg hpr, if_neg hpr]
      exact ⟨rfl, hc⟩
  | none => exact ⟨rfl, hc⟩

/-- One checklist item step: cache independence and coherence. -/
lemma checkItemStep_spec {o : RegexOracle} {cfg : Config} (text : String)
    (item : StudyDesignCheckItem) {c c' : PatternCache}
    (hc : Coherent o cfg c) (hc' : Coherent o cfg c') :
    (checkItemStep o cfg c text item).1 = (checkItemStep o cfg c' text item).1 ∧
    Coherent o cfg (checkItemStep o cfg c text item).2 := by
  unfold checkItemStep
  obtain ⟨h1, h2⟩ := checkItemRef_spec text item hc hc'
  have h2' : Coherent o cfg (checkItemRef o cfg c' text item).2 :=
    (checkItemRef_spec text item hc' hc').2
  cases item.patternRefs with
  | some prs =>
    exact matchesAny_spec prs (checkItemRef o cfg c text item).2
      (checkItemRef o cfg c' text item).2 h2 h2'
  | none => exact ⟨h1, h2⟩

/-- The checklist loop: cache independence and coherence. -/
lemma checklistLoop_spec {o : RegexOracle} {cfg : Config} (text : String) :
    ∀ (items : List StudyDesignCheckItem) (c c' : PatternCache),
      Coherent o cfg c → Coherent o cfg c' →
      (checklistLoop o cfg text c items).1 =
        (checklistLoop o cfg text c' items).1 ∧
      Coherent o cfg (checklistLoop o cfg text c items).2
  | [], c, c', hc, hc' => ⟨rfl, hc⟩
  | item :: rest, c, c', hc, hc' => by
    simp only [checklistLoop]
    obtain ⟨h1, h2⟩ := checkItemStep_spec text item hc hc'
    have h2' : Coherent o cfg (checkItemStep o cfg c' text item).2 :=
      (checkItemStep_spec text item hc' hc').2
    obtain ⟨hr1, hr2⟩ := checklistLoop_spec text rest
      (checkItemStep o cfg c text item).2
      (checkItemStep o cfg c' text item).2 h2 h2'
    refine ⟨?_, hr2⟩
    rw [h1, hr1]

/-- evaluateStudyDesignChecklist: cache independence and coherence. -/
lemma evaluateStudyDesignChecklist_spec {o : RegexOracle} {cfg : Config}
    (text : String) (st : StudyType) {c c' : PatternCache}
    (hc : Coherent o cfg c) (hc' : Coherent o cfg c') :
    (evaluateStudyDesignChecklist o cfg c text st).1 =
      (evaluateStudyDesignChecklist o cfg c' text st).1 ∧
    Coherent o cfg (evaluateStudyDesignChecklist o cfg c text st).2 := by
  unfold evaluateStudyDesignChecklist
  cases cfg.statisticsConfig with
  | none => exact ⟨rfl, hc⟩
  | some sc => exact checklistLoop_spec text (sc.studyDesignChecklist st) c c' hc hc'

/-- One category summation of countStatisticalElements: cache independence
and coherence. -/
lemma sumCategory_spec {o : RegexOracle} {cfg : Config}
    (text catName : String) :
    ∀ (entries : List (String × String)) (c c' : PatternCache),
      Coherent o cfg c → Coherent o cfg c' →
      (sumCategory o cfg text catName c entries).1 =
        (sumCategory o cfg text catName c' entries).1 ∧
      Coherent o cfg (sumCategory o cfg text catName c entries).2
  | [], c, c', hc, hc' => ⟨rfl, hc⟩
  | entry :: rest, c, c', hc, hc' => by
    simp only [sumCategory]
    obtain ⟨h1, h2⟩ := sumCategory_spec text catName rest
      (getCompiledPattern o cfg c (catName ++ "." ++ entry.1)).2
      (getCompiledPattern o cfg c' (catName ++ "." ++ entry.1)).2
      (getCompiledPattern_coherent hc (catName ++ "." ++ entry.1))
      (getCompiledPattern_coherent hc' (catName ++ "." ++ entry.1))
    rw [getCompiledPattern_fst hc, getCompiledPattern_fst hc', h1]
    exact ⟨rfl, h2⟩

/-- countStatisticalElements: cache independence and coherence. -/
lemma countStatisticalElements_spec {o : RegexOracle} {cfg : Config}
    (text : String) {c c' : PatternCache}
    (hc : Coherent o cfg c) (hc' : Coherent o cfg c') :
    (countStatisticalElements o cfg c text).1 =
      (countStatisticalElements o cfg c' text).1 ∧
    Coherent o cfg (countStatisticalElements o cfg c text).2 := by
  simp only [countStatisticalElements]
  cases cfg.statisticsConfig with
  | none => exact ⟨rfl, hc⟩
  | some sc =>
    dsimp only
    rw [getCompiledPattern_fst hc, getCompiledPattern_fst hc']
    have hpc : Coherent o cfg (getCompiledPattern o cfg c "pValue.reported").2 :=
      getCompiledPattern_coherent hc _
    have hpc' : Coherent o cfg (getCompiledPattern o cfg c' "pValue.reported").2 :=
      getCompiledPattern_coherent hc' _
    obtain ⟨he1, he2⟩ := sumCategory_spec text "effectSizes" sc.patterns.effectSizes
      _ _ hpc hpc'
    have he2' : Coherent o cfg (sumCategory o cfg text "effectSizes"
        (getCompiledPattern o cfg c' "pValue.reported").2 sc.patterns.effectSizes).2 :=
      (sumCategory_spec text "effectSizes" sc.patterns.effectSizes _ _ hpc' hpc').2
    obtain ⟨hc1, hc2⟩ := sumCategory_spec text "confidenceInterval"
      sc.patterns.confidenceInterval _ _ he2 he2'
    have hc2' : Coherent o cfg (sumCategory o cfg text "confidenceInterval"
        (sumCategory o cfg text "effectSizes"
          (getCompiledPattern o cfg c' "pValue.reported").2 sc.patterns.effectSizes).2
        sc.patterns.confidenceInterval).2 :=
      (sumCategory_spec text "confidenceInterval" sc.patterns.confidenceInterval
        _ _ he2' he2').2
    obtain ⟨hs1, hs2⟩ := sumCategory_spec text "sampleSize"
      sc.patterns.sampleSize _ _ hc2 hc2'
    have hs2' : Coherent o cfg (sumCategory o cfg text "sampleSize"
        (sumCategory o cfg text "confidenceInterval"
          (sumCategory o cfg text "effectSizes"
            (getCompiledPattern o cfg c' "pValue.reported").2 sc.patterns.effectSizes).2
          sc.patterns.confidenceInterval).2 sc.patterns.sampleSize).2 :=
      (sumCategory_spec text "sampleSize" sc.patterns.sampleSize _ _ hc2' hc2').2
    obtain ⟨ht1, ht2⟩ := sumCategory_spec text "tests"
      sc.patterns.tests _ _ hs2 hs2'
    rw [he1, hc1, hs1, ht1]
    exact ⟨rfl, ht2⟩

/-- lintStatistics: cache independence and coherence preservation. -/
lemma lintStatistics_spec {o : RegexOracle} {cfg : Config}
    (text sec : String) (opts : LintOptions) {c c' : PatternCache}
    (hc : Coherent o cfg c) (hc' : Coherent o cfg c') :
    (lintStatistics o cfg c text sec opts).1 =
      (lintStatistics o cfg c' text sec opts).1 ∧
    Coherent o cfg (lintStatistics o cfg c text sec opts).2 := by
  simp only [lintStatistics]
  cases hlc : cfg.statisticsLinter with
  | none => exact ⟨rfl, hc⟩
  | some lc =>
    dsimp only
    by_cases hen : lc.enabled = true
    · simp only [hen, not_true, if_false]
      set enabled := opts.enabledRules.getD lc.enabledRules
      set disabled := opts.disabledRules.getD lc.disabledRules
      set rules := (match cfg.statisticsConfig with
        | some sc => sc.validationRules
        | none => []) with hrules
      obtain ⟨hr1, hr2⟩ := rulesLoop_spec text sec enabled disabled rules c c' hc hc'
      have hr2' : Coherent o cfg
          (rulesLoop o cfg text sec enabled disabled c' rules).2 :=
        (rulesLoop_spec text sec enabled disabled rules c' c' hc' hc').2
      rw [hr1]
      cases hdt : (detectStudyType o cfg text).type with
      | none =>
        obtain ⟨hS1, hS2⟩ := countStatisticalElements_spec text hr2 hr2'
        rw [hS1]
        exact ⟨rfl, hS2⟩
      | some st =>
        dsimp only
        by_cases hgate : opts.includeChecklist ≠ some false ∧
            (detectStudyType o cfg text).confidence > 3/10 ∧
            (sec = "methodology" ∨ sec = "methods")
        · rw [if_pos hgate, if_pos hgate]
          obtain ⟨hk1, hk2⟩ := evaluateStudyDesignChecklist_spec text st hr2 hr2'
          have hk2' : Coherent o cfg
              (evaluateStudyDesignChecklist o cfg
                (rulesLoop o cfg text sec enabled disabled c' rules).2 text st).2 :=
            (evaluateStudyDesignChecklist_spec text st hr2' hr2').2
          rw [hk1]
          obtain ⟨hS1, hS2⟩ := countStatisticalElements_spec text hk2 hk2'
          rw [hS1]
          exact ⟨rfl, hS2⟩
        · rw [if_neg hgate, if_neg hgate]
          obtain ⟨hS1, hS2⟩ := countStatisticalElements_spec text hr2 hr2'
          rw [hS1]
          exact ⟨rfl, hS2⟩
    · simp only [hen, not_false_iff, if_pos]
      exact ⟨rfl, hc⟩

-- ===========================================================================
-- C7: count-threshold conditions — corrected
-- ===========================================================================

/-- The count-check guard only fires for a non-zero threshold. -/
lemma countCheckGuard_pos {cond : ValidationRuleCondition} {p : String}
    {th : ℕ} (h : countCheckGuard cond = some (p, th)) : th ≠ 0 := by
  unfold countCheckGuard at h
  rcases hT : cond.type with _ | ty
  · rw [hT] at h
    cases h
  · rw [hT] at h
    rcases hP : cond.pattern with _ | pat
    · rw [hP] at h
      cases ty <;> cases h
    · rw [hP] at h
      rcases hTh : cond.threshold with _ | t
      · rw [hTh] at h
        cases ty <;> cases h
      · rw [hTh] at h
        cases ty
        · dsimp only at h
          by_cases hg : pat ≠ "" ∧ t ≠ 0
          · rw [if_pos hg] at h
            cases h
            exact hg.2
          · rw [if_neg hg] at h
            cases h
        · cases h

/-- A zero (falsy) threshold disables the count-check guard. -/
lemma countCheckGuard_zero {cond : ValidationRuleCondition}
    (hty : cond.type = some CondType.countCheck)
    (hth : cond.threshold = some 0) : countCheckGuard cond = none := by
  unfold countCheckGuard
  rw [hty, hth]
  rcases cond.pattern with _ | pat
  · rfl
  · simp

/-- C7 as amended: for a count-threshold condition with a positive
configured threshold (and no earlier-branch fields, not blocked by
sections), the rule triggers exactly when the match count reaches the
threshold and, when missingAllPatterns is given, none of the forbidden
patterns matches.  When the configured threshold is 0 — a falsy value in
JavaScript — the count-check branch is skipped entirely and (absent other
condition fields) the rule does not trigger, contrary to the claimed
boundary behaviour. -/
theorem C7_countCheck_trigger (o : RegexOracle) (cfg : Config)
    (text sec : String) :
    (∀ c cond p th pstr, Coherent o cfg c →
      sectionsBlocked cond sec = false →
      matchPatternGuard cond = none →
      cond.matchPatterns = none →
      countCheckGuard cond = some (p, th) →
      freshPattern o cfg p = some pstr →
      ((evaluateCondition o cfg c cond text sec).1.triggered = true ↔
        th ≤ countMatches o pstr text ∧
        ∀ mAll, cond.missingAllPatterns = some mAll →
          missingAllFresh o cfg text mAll)) ∧
    (∀ c cond, sectionsBlocked cond sec = false →
      matchPatternGuard cond = none →
      cond.matchPatterns = none →
      cond.type = some CondType.countCheck →
      cond.threshold = some 0 →
      cond.hasAnyPattern = none →
      (evaluateCondition o cfg c cond text sec).1.triggered = false) := by
  constructor
  · intro c cond p th pstr hc hsec hmp hmps hguard hfresh
    simp only [evaluateCondition, hsec, Bool.false_eq_true, if_false, hmp,
      hmps, hguard]
    rw [getCompiledPattern_fst hc]
    simp only [hfresh]
    by_cases hcount : countMatches o pstr text ≥ th
    · rw [if_pos hcount]
      cases hma : cond.missingAllPatterns with
      | none =>
        dsimp only
        constructor
        · intro _
          exact ⟨hcount, fun mAll heq => by cases heq⟩
        · intro _
          trivial
      | some mAll =>
        dsimp only
        obtain ⟨-, -, hiff⟩ := missingAll_spec mAll
          (getCompiledPattern o cfg c p).2 (getCompiledPattern o cfg c p).2
          (getCompiledPattern_coherent hc p) (getCompiledPattern_coherent hc p)
        by_cases hmiss :
            (missingAll o cfg text (getCompiledPattern o cfg c p).2 mAll).1
        · rw [if_pos hmiss]
          dsimp only
          constructor
          · intro _
            refine ⟨hcount, fun mAll' heq => ?_⟩
            cases heq
            exact hiff.mp hmiss
          · intro _
            trivial
        · rw [if_neg hmiss]
          dsimp only
          constructor
          · intro h
            cases h
          · rintro ⟨-, hall⟩
            exact absurd (hiff.mpr (hall mAll rfl)) hmiss
    · rw [if_neg hcount]
      dsimp only
      constructor
      · intro h
        cases h
      · rintro ⟨h, -⟩
        exact absurd h hcount
  · intro c cond hsec hmp hmps hty hth hha
    simp only [evaluateCondition, hsec, Bool.false_eq_true, if_false, hmp,
      hmps, countCheckGuard_zero hty hth, hty, hha]
    cases cond.missingAllPatterns <;> rfl

/-- A validation-rule condition whose configured threshold is 0: the
boundary case the claim covers. -/
def cexCond : ValidationRuleCondition :=
  { type := some CondType.countCheck, pattern := some "pv",
    threshold := some 0 }

/-- The configuration of the C7 counterexample (the pattern path "pv" does
not resolve in the registry and is compiled as a raw regex). -/
def cexConfig : Config := {}

/-- C7, counterexample: with threshold 0, a text with one match of the
(compiled) pattern and no missingAllPatterns satisfies the claimed trigger
condition (count ≥ threshold), yet evaluateCondition does not trigger,
because a threshold of 0 is falsy and disables the count-check branch. -/
theorem C7_counterexample :
    freshPattern literalOracle cexConfig "pv" = some "pv" ∧
    countMatches literalOracle "pv" "we saw pv here" = 1 ∧
    cexCond.missingAllPatterns = none ∧
    cexCond.threshold = some 0 ∧
    (evaluateCondition literalOracle cexConfig [] cexCond
      "we saw pv here" "results").1.triggered = false := by
  decide

-- ===========================================================================
-- C8: the disabled short-circuit and the empty-text result of lintStatistics
-- ===========================================================================

/-- Abbreviation for the hypothesis that no configured regex matches the
empty text (every pattern needs at least one character). -/
def NoEmptyMatch (o : RegexOracle) : Prop := ∀ p, o.matchAll p "" = []

lemma countMatches_nil {o : RegexOracle} (hm : NoEmptyMatch o) (p : String) :
    countMatches o p "" = 0 := by
  simp [countMatches, hm p]

lemma matchesAny_nil {o : RegexOracle} {cfg : Config} (hm : NoEmptyMatch o) :
    ∀ (paths : List String) (c : PatternCache),
      (matchesAny o cfg "" c paths).1 = false
  | [], c => rfl
  | path :: rest, c => by
    simp only [matchesAny]
    cases (getCompiledPattern o cfg c path).1 with
    | some p =>
      simp only [countMatches_nil hm p, gt_iff_lt, lt_self_iff_false,
        if_false]
      exact matchesAny_nil hm rest _
    | none => exact matchesAny_nil hm rest _

lemma matchPatternsLoop_nil {o : RegexOracle} {cfg : Config}
    (hm : NoEmptyMatch o) :
    ∀ (paths : List String) (c : PatternCache),
      (matchPatternsLoop o cfg "" c paths).1.triggered = false
  | [], c => rfl
  | path :: rest, c => by
    simp only [matchPatternsLoop]
    cases (getCompiledPattern o cfg c path).1 with
    | some p =>
      simp only [findMatches, hm p, List.length_nil, gt_iff_lt,
        lt_self_iff_false, if_false]
      exact matchPatternsLoop_nil hm rest _
    | none => exact matchPatternsLoop_nil hm rest _

lemma extractSampleSizes_nil {o : RegexOracle} {cfg : Config}
    (hm : NoEmptyMatch o) : extractSampleSizes o cfg "" = [] := by
  unfold extractSampleSizes
  cases cfg.statisticsConfig with
  | none => rfl
  | some sc =>
    dsimp only
    have hall : ∀ l : List (String × String),
        l.flatMap (sampleMatchesFor o "") = [] := by
      intro l
      induction l with
      | nil => rfl
      | cons x xs ih =>
        have hx : sampleMatchesFor o "" x = [] := by
          unfold sampleMatchesFor
          cases compilePatternSafe o x.2 with
          | some p => rw [hm x.2]; rfl
          | none => rfl
        simp [List.flatMap_cons, hx, ih]
    rw [hall]
    rfl

lemma getPrimarySampleSize_nil {o : RegexOracle} {cfg : Config}
    (hm : NoEmptyMatch o) : getPrimarySampleSize o cfg "" = none := by
  simp [getPrimarySampleSize, extractSampleSizes_nil hm]

lemma countTypeMatches_nil {o : RegexOracle} (hm : NoEmptyMatch o)
    (patterns : List String) : countTypeMatches o "" patterns = (0, []) := by
  unfold countTypeMatches
  have : ∀ acc : ℕ × List String, patterns.foldl
      (fun acc p =>
        match compilePatternSafe o p with
        | some _ => if (o.matchAll p "").isEmpty then acc
            else (acc.1 + 1, acc.2 ++ [p])
        | none => acc) acc = acc := by
    intro acc
    induction patterns generalizing acc with
    | nil => rfl
    | cons x xs ih =>
      simp only [List.foldl_cons]
      cases compilePatternSafe o x with
      | some p => simp only [hm x, List.isEmpty_nil, if_pos]; exact ih acc
      | none => exact ih acc
  exact this (0, [])

lemma detectStudyType_nil {o : RegexOracle} {cfg : Config}
    (hm : NoEmptyMatch o) :
    detectStudyType o cfg "" =
      { type := none, confidence := 0, matchedPatterns := [] } := by
  unfold detectStudyType
  cases cfg.statisticsConfig with
  | none => rfl
  | some sc =>
    have hlow : jsToLowerCase "" = "" := rfl
    simp only [hlow, countTypeMatches_nil hm]
    rfl

lemma sumCategory_nil {o : RegexOracle} {cfg : Config} (catName : String)
    (hm : NoEmptyMatch o) :
    ∀ (entries : List (String × String)) (c : PatternCache),
      (sumCategory o cfg "" catName c entries).1 = 0
  | [], c => rfl
  | entry :: rest, c => by
    simp only [sumCategory]
    cases (getCompiledPattern o cfg c (catName ++ "." ++ entry.1)).1 with
    | some p =>
      simp only [countMatches_nil hm p]
      rw [sumCategory_nil catName hm rest]
    | none =>
      simp only
      rw [sumCategory_nil catName hm rest]

lemma countStatisticalElements_nil {o : RegexOracle} {cfg : Config}
    (hm : NoEmptyMatch o) (c : PatternCache) :
    (countStatisticalElements o cfg c "").1 = zeroStats := by
  simp only [countStatisticalElements]
  cases cfg.statisticsConfig with
  | none => rfl
  | some sc =>
    dsimp only
    cases (getCompiledPattern o cfg c "pValue.reported").1 with
    | some p =>
      simp only [countMatches_nil hm p, sumCategory_nil _ hm]
      try rfl
    | none =>
      simp only [sumCategory_nil _ hm]
      try rfl

lemma evaluateCondition_nil {o : RegexOracle} {cfg : Config}
    (hm : NoEmptyMatch o) (c : PatternCache)
    (cond : ValidationRuleCondition) (sec : String) :
    (evaluateCondition o cfg c cond "" sec).1.triggered = false := by
  unfold evaluateCondition
  by_cases hsb : sectionsBlocked cond sec
  · simp [hsb]
  · simp only [hsb, Bool.false_eq_true, if_false]
    cases matchPatternGuard cond with
    | some mp =>
      dsimp only
      cases (getCompiledPattern o cfg c mp).1 with
      | some p =>
        simp only [findMatches, hm p, List.length_nil, gt_iff_lt,
          lt_self_iff_false, if_false]
        try rfl
      | none => rfl
    | none =>
      cases cond.matchPatterns with
      | some lst => exact matchPatternsLoop_nil hm lst c
      | none =>
        cases hg : countCheckGuard cond with
        | some pth =>
          dsimp only
          cases (getCompiledPattern o cfg c pth.1).1 with
          | some p =>
            have hth : ¬ countMatches o p "" ≥ pth.2 := by
              rw [countMatches_nil hm p]
              have := countCheckGuard_pos hg
              omega
            simp only [hth, if_neg, if_false]
            try rfl
          | none => rfl
        | none =>
          by_cases hty : cond.type = some CondType.sampleSizeCheck
          · simp only [hty, if_pos]
            rw [getPrimarySampleSize_nil hm]
          · simp only [hty, if_neg, if_false]
            cases cond.hasAnyPattern with
            | some ha =>
              cases cond.missingAllPatterns with
              | some mAll =>
                dsimp only
                simp only [matchesAny_nil hm ha c, Bool.false_eq_true,
                  if_false]
                try rfl
              | none => rfl
            | none => cases cond.missingAllPatterns <;> rfl

lemma processRule_nil {o : RegexOracle} {cfg : Config} (hm : NoEmptyMatch o)
    (c : PatternCache) (rule : ValidationRule) (sec : String) :
    (processRule o cfg c rule "" sec).1 = [] := by
  simp only [processRule]
  rw [evaluateCondition_nil hm]
  simp

lemma rulesLoop_nil {o : RegexOracle} {cfg : Config} (hm : NoEmptyMatch o)
    (sec : String) (enabled disabled : List String) :
    ∀ (rules : List ValidationRule) (c : PatternCache),
      (rulesLoop o cfg "" sec enabled disabled c rules).1.1 = [] ∧
      ∀ rr ∈ (rulesLoop o cfg "" sec enabled disabled c rules).1.2,
        rr.issueCount = 0
  | [], c => ⟨rfl, by intro rr h; cases h⟩
  | rule :: rest, c => by
    simp only [rulesLoop]
    by_cases hd : disabled.contains rule.id = true
    · rw [if_pos hd]
      exact rulesLoop_nil hm sec enabled disabled rest c
    · rw [if_neg hd]
      by_cases he : enabled ≠ [] ∧ ¬ enabled.contains rule.id = true
      · rw [if_pos he]
        exact rulesLoop_nil hm sec enabled disabled rest c
      · rw [if_neg he]
        obtain ⟨ih1, ih2⟩ := @rulesLoop_nil o cfg hm sec enabled disabled rest
          (processRule o cfg c rule "" sec).2
        refine ⟨?_, ?_⟩
        · simp [processRule_nil hm, ih1]
        · intro rr hrr
          rcases List.mem_cons.mp hrr with rfl | hrr
          · simp [processRule_nil hm]
          · exact ih2 rr hrr

/-- C8: when the statistics-linter feature is disabled, lintStatistics
returns the empty-but-well-formed result (all fields present, zero issues,
empty ruleResults, zero stats, unknown study type) and leaves the cache
untouched; and on empty text — under the hypothesis that no pattern matches
the empty string — an enabled run also produces zero issues, zero counts,
unknown study type, no checklist or adequacy block, and zero issues in
every rule result. -/
theorem C8_lintStatistics_empty_shape (o : RegexOracle) (cfg : Config)
    (c : PatternCache) (text sec : String) (opts : LintOptions) :
    ((cfg.statisticsLinter = none ∨
        (∃ lc, cfg.statisticsLinter = some lc ∧ lc.enabled = false)) →
      lintStatistics o cfg c text sec opts =
        ({ issues := [], ruleResults := [],
           stats := { pValues := 0, effectSizes := 0, confidenceIntervals := 0,
                      sampleSizes := 0, statisticalTests := 0 },
           studyType := { type := none, confidence := 0 },
           studyDesignChecklist := none, sampleAdequacy := none }, c)) ∧
    (NoEmptyMatch o →
      (lintStatistics o cfg c "" sec opts).1.issues = [] ∧
      (lintStatistics o cfg c "" sec opts).1.stats = zeroStats ∧
      (lintStatistics o cfg c "" sec opts).1.studyType =
        { type := none, confidence := 0 } ∧
      (lintStatistics o cfg c "" sec opts).1.studyDesignChecklist = none ∧
      (lintStatistics o cfg c "" sec opts).1.sampleAdequacy = none ∧
      ∀ rr ∈ (lintStatistics o cfg c "" sec opts).1.ruleResults,
        rr.issueCount = 0) := by
  constructor
  · intro hdis
    simp only [lintStatistics]
    rcases hdis with hnone | ⟨lc, hlc, hen⟩
    · rw [hnone]
      rfl
    · rw [hlc]
      simp [hen, emptyLintResult, zeroStats]
  · intro hm
    simp only [lintStatistics]
    cases hlc : cfg.statisticsLinter with
    | none => exact ⟨rfl, rfl, rfl, rfl, rfl, by intro rr h; cases h⟩
    | some lc =>
      dsimp only
      by_cases hen : lc.enabled = true
      · simp only [hen, not_true, if_false]
        obtain ⟨hr1, hr2⟩ := @rulesLoop_nil o cfg hm sec
          (opts.enabledRules.getD lc.enabledRules)
          (opts.disabledRules.getD lc.disabledRules)
          (match cfg.statisticsConfig with
            | some sc => sc.validationRules
            | none => []) c
        rw [detectStudyType_nil hm]
        dsimp only
        rw [getPrimarySampleSize_nil hm]
        refine ⟨?_, ?_, rfl, rfl, ?_, ?_⟩
        · simp [hr1]
        · exact countStatisticalElements_nil hm _
        · by_cases hsa : opts.includeSampleAdequacy ≠ some false
          · rw [if_pos hsa]
          · rw [if_neg hsa]
        · exact hr2
      · simp only [hen, not_false_iff, if_pos]
        exact ⟨rfl, rfl, rfl, rfl, rfl, by intro rr h; cases h⟩

/-- C8, witness: the empty-but-well-formed result on the disabled reference
configuration, and the zero-issue empty-text result on the enabled one. -/
theorem C8_witness :
    lintStatistics literalOracle disabledConfig [] "p = 0.000" "results" {} =
      ({ issues := [], ruleResults := [],
         stats := { pValues := 0, effectSizes := 0, confidenceIntervals := 0,
                    sampleSizes := 0, statisticalTests := 0 },
         studyType := { type := none, confidence := 0 },
         studyDesignChecklist := none, sampleAdequacy := none }, []) ∧
    (lintStatistics literalOracle referenceConfig [] "" "results" {}).1.issues
      = [] :=
  ⟨(C8_lintStatistics_empty_shape literalOracle disabledConfig []
      "p = 0.000" "results" {}).1
      (Or.inr ⟨{ enabled := false }, rfl, rfl⟩),
   ((C8_lintStatistics_empty_shape literalOracle referenceConfig []
      "" "results" {}).2 (by
        intro p
        simp only [literalOracle]
        by_cases hp : p = ""
        · rw [if_pos hp]
        · rw [if_neg hp]
          rfl)).1⟩

-- ===========================================================================
-- C9: idempotence — cache population does not change results
-- ===========================================================================

/-- C9: the only hidden state among the lint and extraction functions is the
compiled-pattern cache of the statistics linter, threaded explicitly here.
The empty cache is coherent, lintStatistics preserves coherence, and its
result is the same from any two coherent cache states — in particular a
second call on the cache the first call populated returns the identical
result.  Every other claimed function (the calculator functions and the
academic linter) takes no cache at all: each is a pure function of its
arguments, so calling it twice on identical input is definitionally the
same value, as the remaining conjuncts record. -/
theorem C9_idempotence (o : RegexOracle) (cfg : Config) (text sec : String)
    (opts : LintOptions) (rules : List LintRule)
    (acfg : Option AcademicLinterConfig) (aopts : AcademicOptions) :
    (∀ c c', Coherent o cfg c → Coherent o cfg c' →
      (lintStatistics o cfg c text sec opts).1 =
        (lintStatistics o cfg c' text sec opts).1 ∧
      Coherent o cfg (lintStatistics o cfg c text sec opts).2) ∧
    (∀ c, Coherent o cfg c →
      (lintStatistics o cfg (lintStatistics o cfg c text sec opts).2
          text sec opts).1 =
        (lintStatistics o cfg c text sec opts).1) ∧
    Coherent o cfg [] ∧
    lintAcademicText rules acfg text sec aopts =
      lintAcademicText rules acfg text sec aopts ∧
    extractSampleSizes o cfg text = extractSampleSizes o cfg text ∧
    getPrimarySampleSize o cfg text = getPrimarySampleSize o cfg text ∧
    extractEffectSizes o cfg text = extractEffectSizes o cfg text ∧
    (∀ v ty, interpretEffectSize cfg v ty = interpretEffectSize cfg v ty) ∧
    detectStudyType o cfg text = detectStudyType o cfg text ∧
    detectStatisticalTests o cfg text = detectStatisticalTests o cfg text ∧
    (∀ n tt, assessSampleAdequacy cfg n tt = assessSampleAdequacy cfg n tt) := by
  refine ⟨fun c c' hc hc' => lintStatistics_spec text sec opts hc hc',
    fun c hc => ?_, coherent_nil o cfg, rfl, rfl, rfl, rfl, fun _ _ => rfl,
    rfl, rfl, fun _ _ => rfl⟩
  exact (lintStatistics_spec text sec opts
    (lintStatistics_spec text sec opts hc hc).2 hc).1

end PaperLint
